import Mathlib

/-!
Verification development for the shape-detection engine of the
CppObjectRecognition repository (RectangleDetector.cpp / SphereDetector.cpp).

Conventions of the embedding:
* C++ `double` arithmetic is modelled by exact real arithmetic (`ℝ`).
* C++ `int` values (pixel intensities, coordinates) are modelled by `ℤ`;
  `std::vector` by `List`.
* `static_cast<int>` on a double is truncation toward zero (`dtrunc`);
  `std::round` is round-half-away-from-zero (`dround`);
  `std::floor(x + 0.5)` is `⌊x + 1/2⌋`.
* `std::atan2(y, x)` is `Complex.arg ⟨x, y⟩` (range `(-π, π]`).
* While-loops whose termination is not structural carry an explicit fuel
  parameter bounding the number of iterations; all soundness statements are
  proved for every fuel value, and callers pass a generous bound.
* Out-parameters returned through a `bool` are modelled with `Option`.
-/

noncomputable section

open Classical in
/-- Real-valued branch conditions of the source are classically decidable. -/
instance (priority := low) realPropDec (p : Prop) : Decidable p := propDecidable p

/-- `static_cast<int>` applied to a double: truncation toward zero. -/
def dtrunc (x : ℝ) : ℤ := if 0 ≤ x then ⌊x⌋ else ⌈x⌉

/-- `std::round` followed by `static_cast<int>`: round half away from zero. -/
def dround (x : ℝ) : ℤ := if 0 ≤ x then ⌊x + 1/2⌋ else ⌈x - 1/2⌉

/-- `std::atan2(y, x)`, with value in `(-π, π]`. -/
def atan2R (y x : ℝ) : ℝ := Complex.arg ⟨x, y⟩

/-- The closed integer interval `[a, b]` as a list (empty when `b < a`),
modelling `for (x = a; x <= b; ++x)`. -/
def intsFromTo (a b : ℤ) : List ℤ :=
  (List.range (b + 1 - a).toNat).map (fun i : ℕ => a + (i : ℤ))

/-- The interval `[0, n)` as a list, modelling `for (i = 0; i < n; ++i)`. -/
def intRange (n : ℤ) : List ℤ := intsFromTo 0 (n - 1)

/-- `struct Point { int x, y; }`. -/
structure Point where
  x : ℤ
  y : ℤ
  deriving DecidableEq, Repr

/-- `struct Image`: a width/height pair and the pixel grid, addressed as
`pixels y x` like the source's `pixels[y][x]`. -/
structure Image where
  width : ℤ
  height : ℤ
  pixels : ℤ → ℤ → ℤ

/-- `struct Rectangle`. -/
structure Rectangle where
  center : Point
  width : ℤ
  height : ℤ
  angle : ℝ

/-- `struct Obloid`. -/
structure Obloid where
  center : Point
  radius : ℤ
  confidence : ℝ

/-- `struct ScanlineSegment`. -/
structure ScanlineSegment where
  y : ℤ
  x1 : ℤ
  x2 : ℤ
  parentY : ℤ

/-- Euclidean distance between two integer points, as the source computes it
(`std::sqrt(dx*dx + dy*dy)` on doubles). -/
def distR (p q : Point) : ℝ :=
  Real.sqrt (((p.x : ℝ) - (q.x : ℝ)) ^ 2 + ((p.y : ℝ) - (q.y : ℝ)) ^ 2)

/-- Sum of a real-valued function over a list (the running-sum accumulators of
the source's loops). -/
def sumBy (l : List α) (f : α → ℝ) : ℝ := (l.map f).sum

/-- Visited matrix `std::vector<std::vector<bool>>`, as a function
`visited x y`. -/
def Vis : Type := ℤ → ℤ → Bool

/-- Mark one pixel visited. -/
def setVis (v : Vis) (x y : ℤ) : Vis :=
  fun a b => if a = x ∧ b = y then true else v a b

namespace Scanline

/-! The scanline flood fill shared verbatim between
`RectangleDetector::ScanlineFillContour` and
`ObloidDetector::ScanlineFillContour`. -/

/-- `while (x1 > 0 && pixels[y][x1-1] == 255 && !visited[y][x1-1]) x1--;`
The fuel bounds the iteration count; `x1.toNat` iterations always suffice. -/
def extendLeft (img : Image) (vis : Vis) (y : ℤ) : ℕ → ℤ → ℤ
  | 0, x1 => x1
  | fuel + 1, x1 =>
    if 0 < x1 ∧ img.pixels y (x1 - 1) = 255 ∧ vis (x1 - 1) y = false then
      extendLeft img vis y fuel (x1 - 1)
    else x1

/-- `while (x2 < width-1 && pixels[y][x2+1] == 255 && !visited[y][x2+1]) x2++;` -/
def extendRight (img : Image) (vis : Vis) (y : ℤ) : ℕ → ℤ → ℤ
  | 0, x2 => x2
  | fuel + 1, x2 =>
    if x2 < img.width - 1 ∧ img.pixels y (x2 + 1) = 255 ∧ vis (x2 + 1) y = false then
      extendRight img vis y fuel (x2 + 1)
    else x2

/-- The scanline-processing loop of the popped segment:
`for (x = x1; x <= x2; ++x) if (!visited) { visited = true; push point; }`.
Returns the extended contour and the updated visited matrix. -/
def markRow (img : Image) (y : ℤ) : List ℤ → Vis → List Point → List Point × Vis
  | [], vis, acc => (acc, vis)
  | x :: xs, vis, acc =>
    if vis x y then markRow img y xs vis acc
    else markRow img y xs (setVis vis x y) (acc ++ [⟨x, y⟩])

/-- The run scanner for the row above/below a segment: skips non-white or
visited pixels, finds a maximal unvisited white run inside `[x, x2]`, extends
it left/right, emits it, and continues after the inner run.  One unit of fuel
is spent per x-advance. -/
def scanRuns (img : Image) (vis : Vis) (newY x2 : ℤ) : ℕ → ℤ → List ScanlineSegment
  | 0, _ => []
  | fuel + 1, x =>
    if x ≤ x2 then
      if img.pixels newY x = 255 ∧ vis x newY = false then
        -- inner run advance: while (x <= x2 && pixels == 255 && !visited) x++
        let xe := runEnd img vis newY x2 fuel (x + 1)
        let nx1 := extendLeft img vis newY x.toNat x
        let nx2 := extendRight img vis newY (img.width - 1 - (xe - 1)).toNat (xe - 1)
        ⟨newY, nx1, nx2, 0⟩ :: scanRuns img vis newY x2 fuel xe
      else scanRuns img vis newY x2 fuel (x + 1)
    else []
where
  /-- `while (x <= x2 && pixels[newY][x] == 255 && !visited[newY][x]) x++;`
  returning the first failing position. -/
  runEnd (img : Image) (vis : Vis) (newY x2 : ℤ) : ℕ → ℤ → ℤ
    | 0, x => x
    | fuel + 1, x =>
      if x ≤ x2 ∧ img.pixels newY x = 255 ∧ vis x newY = false then
        runEnd img vis newY x2 fuel (x + 1)
      else x

/-- One pop of the explicit stack: process the scanline, then scan the rows
above (`dir = -1` first) and below (`dir = +1`), pushing discovered runs.
The stack is a list whose head is the top. -/
def fillLoop (img : Image) : ℕ → List ScanlineSegment → Vis → List Point →
    List Point × Vis
  | 0, _, vis, acc => (acc, vis)
  | _ + 1, [], vis, acc => (acc, vis)
  | fuel + 1, seg :: rest, vis, acc =>
    let step := markRow img seg.y (intsFromTo seg.x1 seg.x2) vis acc
    let rowFuel := (seg.x2 + 1 - seg.x1).toNat + 1
    let upSegs :=
      if 0 ≤ seg.y - 1 ∧ seg.y - 1 < img.height then
        scanRuns img step.2 (seg.y - 1) seg.x2 rowFuel seg.x1
      else []
    let downSegs :=
      if 0 ≤ seg.y + 1 ∧ seg.y + 1 < img.height then
        scanRuns img step.2 (seg.y + 1) seg.x2 rowFuel seg.x1
      else []
    fillLoop img fuel (downSegs.reverse ++ upSegs.reverse ++ rest) step.2 step.1

/-- `ScanlineFillContour`: build the seed segment around `(startX, startY)`,
then run the stack loop.  Returns the filled region (the points appended to
`contour`) and the final visited matrix. -/
def scanlineFillContour (img : Image) (startX startY : ℤ) (vis : Vis) :
    List Point × Vis :=
  let x1 := extendLeft img vis startY startX.toNat startX
  let x2 := extendRight img vis startY (img.width - 1 - startX).toNat startX
  fillLoop img ((img.width.toNat + 1) * (img.height.toNat + 1) * 4 + 4)
    [⟨startY, x1, x2, -1⟩] vis []

end Scanline

/-- `ExtractBoundary` (identical in both detectors up to the final sort, which
only the rectangle detector applies): a region point is boundary when some
8-connected neighbour is out of bounds or black. -/
def isBoundaryPoint (img : Image) (p : Point) : Bool :=
  (intsFromTo (-1) 1).any fun dy =>
    (intsFromTo (-1) 1).any fun dx =>
      if dx = 0 ∧ dy = 0 then false
      else
        let nx := p.x + dx
        let ny := p.y + dy
        decide (nx < 0 ∨ img.width ≤ nx ∨ ny < 0 ∨ img.height ≤ ny ∨
          img.pixels ny nx = 0)

/-- `ApplyGaussianBlur` (duplicated verbatim in both detectors): separable
Gaussian with kernel size `2·ceil(3σ)+1` (forced odd) and edge clamping;
out-of-range pixels keep the copied input values. -/
def ApplyGaussianBlur (img : Image) (sigma : ℝ) : Image :=
  if sigma ≤ 0.1 then img
  else
    let ks0 : ℤ := dtrunc (2 * ⌈3 * sigma⌉ + 1)
    let kernelSize : ℤ := if ks0 % 2 = 0 then ks0 + 1 else ks0
    let halfKernel : ℤ := kernelSize / 2
    let raw : ℤ → ℝ := fun i =>
      Real.exp (-(((i - halfKernel : ℤ) : ℝ) ^ 2) / (2 * sigma ^ 2))
    let ksum : ℝ := ((intRange kernelSize).map raw).sum
    let kernel : ℤ → ℝ := fun i => raw i / ksum
    let clampW : ℤ → ℤ := fun v => max 0 (min v (img.width - 1))
    let clampH : ℤ → ℤ := fun v => max 0 (min v (img.height - 1))
    let inB : ℤ → ℤ → Prop := fun y x =>
      0 ≤ y ∧ y < img.height ∧ 0 ≤ x ∧ x < img.width
    -- horizontal pass into `temp`, then vertical pass into `result`
    let temp : ℤ → ℤ → ℤ := fun y x =>
      if inB y x then
        dround (((intRange kernelSize).map fun k =>
          (img.pixels y (clampW (x + k - halfKernel)) : ℝ) * kernel k).sum)
      else img.pixels y x
    ⟨img.width, img.height, fun y x =>
      if inB y x then
        dround (((intRange kernelSize).map fun k =>
          (temp (clampH (y + k - halfKernel)) x : ℝ) * kernel k).sum)
      else img.pixels y x⟩

/-- One iteration of the seed-scanning double loop of `FindContours` (shared
shape between the two detectors; `minRegion` is 50 for rectangles and 20 for
obloids, and `extract` the respective `ExtractBoundary`): an unvisited white
pixel seeds a flood fill, and a sufficiently large region with a sufficiently
large boundary contributes a contour. -/
def findContoursStep (img : Image) (minRegion : ℕ)
    (extract : List Point → Image → List Point)
    (st : Vis × List (List Point)) (yx : ℤ × ℤ) : Vis × List (List Point) :=
  let y := yx.1
  let x := yx.2
  if st.1 x y = false ∧ img.pixels y x = 255 then
    let fill := Scanline.scanlineFillContour img x y st.1
    if minRegion ≤ fill.1.length then
      let boundary := extract fill.1 img
      if 8 ≤ boundary.length then (fill.2, st.2 ++ [boundary])
      else (fill.2, st.2)
    else (fill.2, st.2)
  else st

/-- The row-major seed scan order of `FindContours`. -/
def yxPairs (img : Image) : List (ℤ × ℤ) :=
  (intRange img.height).flatMap fun y => (intRange img.width).map fun x => (y, x)

namespace ObloidDetector

/-- The configuration fields of `ObloidDetector`. -/
structure Config where
  minRadius : ℤ
  maxRadius : ℤ
  circularityThreshold : ℝ
  confidenceThreshold : ℝ

/-- `CalculateArea`: the contour holds all pixels of the filled region, so the
area is the point count. -/
def CalculateArea (contour : List Point) : ℝ :=
  if contour.length < 3 then 0 else (contour.length : ℝ)

/-- `CalculatePerimeter`: perimeter estimated from the area assuming a disk,
`2π·sqrt(area/π)` with `area = contour.size()`. -/
def CalculatePerimeter (contour : List Point) : ℝ :=
  if contour.length < 2 then 0
  else 2 * Real.pi * Real.sqrt ((contour.length : ℝ) / Real.pi)

/-- `CalculateCircularity = 4π·Area/Perimeter²`, with degenerate guards. -/
def CalculateCircularity (contour : List Point) : ℝ :=
  if contour.length < 3 then 0
  else
    let area := CalculateArea contour
    let perimeter := CalculatePerimeter contour
    if perimeter < 1e-9 then 0
    else (4 * Real.pi * area) / (perimeter * perimeter)

/-- `CalculateCentroid`: rounded arithmetic mean of the points. -/
def CalculateCentroid (contour : List Point) : Point :=
  if contour.length = 0 then ⟨0, 0⟩
  else
    ⟨dround (sumBy contour (fun p => (p.x : ℝ)) / (contour.length : ℝ)),
     dround (sumBy contour (fun p => (p.y : ℝ)) / (contour.length : ℝ))⟩

/-- `EstimateRadius`: rounded mean distance from `center` to the points. -/
def EstimateRadius (contour : List Point) (center : Point) : ℤ :=
  if contour.length = 0 then 0
  else dround (sumBy contour (fun p => distR p center) / (contour.length : ℝ))

/-- `CalculateCircleFitError`: mean absolute radial error; the empty case is
`std::numeric_limits<double>::max()`, stood for by `2^1024`. -/
def CalculateCircleFitError (contour : List Point) (center : Point)
    (radius : ℤ) : ℝ :=
  if contour.length = 0 then (2 : ℝ) ^ 1024
  else sumBy contour (fun p => |distR p center - (radius : ℝ)|) / (contour.length : ℝ)

/-- `ValidateCircleGeometry`: positive in-range radius, and at least 70% of
the contour points within `max(3, 0.15·radius)` of the fitted radius. -/
def ValidateCircleGeometry (cfg : Config) (contour : List Point)
    (center : Point) (radius : ℤ) : Prop :=
  ¬(contour = [] ∨ radius ≤ 0) ∧
  ¬(radius < cfg.minRadius ∨ cfg.maxRadius < radius) ∧
  (let tolerance := max 3 ((radius : ℝ) * 0.15)
   let inliers := contour.countP fun p =>
     decide (|distR p center - (radius : ℝ)| ≤ tolerance)
   0.7 ≤ (inliers : ℝ) / (contour.length : ℝ))

/-- `FitCircleToContour`: the Kasa least-squares normal equations, solved by
Cramer's rule, with a centroid/mean-radius fallback when the 2×2 determinant
is below `1e-9` in absolute value. -/
def FitCircleToContour (contour : List Point) : Obloid :=
  if contour.length < 3 then ⟨⟨0, 0⟩, 0, 0⟩
  else
    let sumX := sumBy contour fun p => (p.x : ℝ)
    let sumY := sumBy contour fun p => (p.y : ℝ)
    let sumX2 := sumBy contour fun p => (p.x : ℝ) ^ 2
    let sumY2 := sumBy contour fun p => (p.y : ℝ) ^ 2
    let sumXY := sumBy contour fun p => (p.x : ℝ) * (p.y : ℝ)
    let sumX3 := sumBy contour fun p => (p.x : ℝ) ^ 3
    let sumY3 := sumBy contour fun p => (p.y : ℝ) ^ 3
    let sumX2Y := sumBy contour fun p => (p.x : ℝ) ^ 2 * (p.y : ℝ)
    let sumXY2 := sumBy contour fun p => (p.x : ℝ) * (p.y : ℝ) ^ 2
    let n : ℝ := (contour.length : ℝ)
    let A := 2 * (n * sumX2 - sumX * sumX)
    let B := 2 * (n * sumXY - sumX * sumY)
    let C := 2 * (n * sumY2 - sumY * sumY)
    let D := n * (sumX3 + sumXY2) - sumX * (sumX2 + sumY2)
    let E := n * (sumY3 + sumX2Y) - sumY * (sumX2 + sumY2)
    let det := A * C - B * B
    let center :=
      if |det| < 1e-9 then CalculateCentroid contour
      else ⟨dround ((D * C - E * B) / det), dround ((A * E - B * D) / det)⟩
    let radius := EstimateRadius contour center
    let fitError := CalculateCircleFitError contour center radius
    ⟨center, radius, max 0 (1 - fitError / max 1 (radius : ℝ))⟩

/-- `IsObloid` with its out-parameter: `some obloid` exactly when the function
returns `true`. -/
def IsObloid (cfg : Config) (contour : List Point) : Option Obloid :=
  if contour.length < 8 then none
  else if CalculateCircularity contour < cfg.circularityThreshold then none
  else
    let fit := FitCircleToContour contour
    if ¬ ValidateCircleGeometry cfg contour fit.center fit.radius then none
    else
      let fitError := CalculateCircleFitError contour fit.center fit.radius
      let confidence := max 0 (1 - fitError / (fit.radius : ℝ))
      if cfg.confidenceThreshold ≤ confidence then
        some ⟨fit.center, fit.radius, confidence⟩
      else none

/-- `ExtractBoundary` of the obloid detector (no sorting). -/
def ExtractBoundary (region : List Point) (img : Image) : List Point :=
  region.filter (isBoundaryPoint img)

/-- `FindContours` of the obloid detector: scan for unvisited white seeds,
flood-fill each region, keep regions of at least 20 pixels whose boundary has
at least 8 points. -/
def FindContours (img : Image) : List (List Point) :=
  ((yxPairs img).foldl (findContoursStep img 20 ExtractBoundary)
    ((fun _ _ => false), [])).2

/-- `PreprocessImage`: Gaussian blur (σ = 1.0) then binarization at 127. -/
def PreprocessImage (img : Image) : Image :=
  let blurred := ApplyGaussianBlur img 1.0
  ⟨img.width, img.height, fun y x =>
    if 0 ≤ y ∧ y < blurred.height ∧ 0 ≤ x ∧ x < blurred.width then
      if 127 < blurred.pixels y x then 255 else 0
    else img.pixels y x⟩

end ObloidDetector

/-! The duplicate-removal sweep shared (up to its pair condition) by
`RemoveDuplicateRectangles` and `RemoveDuplicateObloids`: a `toRemove` flag per
candidate, an outer loop over unremoved pivots, an inner loop marking every
later unremoved candidate that conflicts with the pivot, then a filter. -/

/-- The inner loop for one pivot `a`: mark every later candidate conflicting
with `a` (already-marked entries stay marked). -/
def markAll (cond : α → α → Bool) (a : α) (l : List (α × Bool)) : List (α × Bool) :=
  l.map fun pb => (pb.1, pb.2 || cond a pb.1)

/-- The outer loop plus the final `remove_if` filter: a marked candidate is
dropped and never acts as pivot; an unmarked candidate survives and marks the
conflicting later ones. -/
def sweepKeep (cond : α → α → Bool) : List (α × Bool) → List α
  | [] => []
  | pb :: rest =>
    if pb.2 then sweepKeep cond rest
    else pb.1 :: sweepKeep cond (markAll cond pb.1 rest)
termination_by l => l.length
decreasing_by
· simp
· simp [markAll]

/-- Specification-shaped greedy deduplication: a candidate is kept exactly
when no earlier kept candidate conflicts with it. -/
def greedyKeep (cond : α → α → Bool) : List α → List α → List α
  | _, [] => []
  | kept, a :: rest =>
    if kept.any fun k => cond k a then greedyKeep cond kept rest
    else a :: greedyKeep cond (kept ++ [a]) rest

/-- `std::sort(v, comp)` with a strict comparator, modelled as a stable sort
by the complement order (any permutation sorted w.r.t. `comp` is a legal
`std::sort` outcome; this picks a canonical one). -/
def sortByComp (comp : α → α → Bool) (l : List α) : List α :=
  l.mergeSort fun a b => !comp b a

namespace ObloidDetector

/-- The pair condition of `RemoveDuplicateObloids`: centers closer than 70% of
the radius sum. -/
def obloidDupCond (a b : Obloid) : Bool :=
  decide (distR a.center b.center < ((a.radius : ℝ) + (b.radius : ℝ)) * 0.7)

/-- `RemoveDuplicateObloids`: sort by radius descending, then the marking
sweep. -/
def RemoveDuplicateObloids (obloids : List Obloid) : List Obloid :=
  if obloids.length ≤ 1 then obloids
  else
    let sorted := sortByComp (fun a b => decide (b.radius < a.radius)) obloids
    sweepKeep obloidDupCond (sorted.map fun o => (o, false))

/-- `DetectObloids`: preprocess, find contours, filter through `IsObloid` and
the radius/confidence gates, then deduplicate.  The OpenMP branch
(`contours.size() > 10`) writes into index-addressed slots and compacts in
index order, which yields the same list as the sequential branch; both are
embedded as the single filter below. -/
def DetectObloids (cfg : Config) (img : Image) : List Obloid :=
  let processed := PreprocessImage img
  let contours := FindContours processed
  let obloids := contours.filterMap fun contour =>
    match IsObloid cfg contour with
    | none => none
    | some obloid =>
      if cfg.minRadius ≤ obloid.radius ∧ obloid.radius ≤ cfg.maxRadius ∧
          cfg.confidenceThreshold ≤ obloid.confidence then
        some obloid
      else none
  RemoveDuplicateObloids obloids

/-- The full member state of an `ObloidDetector` instance: the four
configuration fields and the two pre-allocated (never read or written)
caches. -/
structure DetectorState where
  cfg : Config
  distanceCache : List ℝ
  radiusCache : List ℝ

/-- The method call `detector.DetectObloids(image)` as a state transformer:
the body reads the configuration fields and assigns no member, so the state
component is returned unchanged. -/
def DetectObloidsM (s : DetectorState) (img : Image) :
    List Obloid × DetectorState :=
  (DetectObloids s.cfg img, s)

end ObloidDetector

namespace RectangleDetector

/-- The configuration fields of `RectangleDetector`. -/
structure Config where
  minArea : ℝ
  maxArea : ℝ
  approxEpsilon : ℝ

/-- List indexing with the source's in-bounds accesses; out-of-bounds reads
(never reached by the embedded code paths) default to the origin. -/
def getP (c : List Point) (i : ℕ) : Point := c.getD i ⟨0, 0⟩

/-- The cyclic shoelace sum `Σ (xᵢ·yᵢ₊₁ − xᵢ₊₁·yᵢ)`, exact in `ℤ` (the
source's doubles represent these integer products exactly). -/
def shoelaceSum (c : List Point) : ℤ :=
  ((List.range c.length).map fun i =>
    (getP c i).x * (getP c ((i + 1) % c.length)).y -
      (getP c ((i + 1) % c.length)).x * (getP c i).y).sum

/-- `CalculateArea`: half the absolute shoelace sum (the unrolled
quadrilateral branch computes the same sum). -/
def CalculateArea (contour : List Point) : ℝ :=
  if contour.length < 3 then 0 else |(shoelaceSum contour : ℝ)| * 0.5

/-- `CalculatePerimeter`: sum of cyclic segment lengths (the unrolled
quadrilateral branch computes the same sum). -/
def CalculatePerimeter (contour : List Point) : ℝ :=
  if contour.length < 2 then 0
  else ((List.range contour.length).map fun i =>
    distR (getP contour ((i + 1) % contour.length)) (getP contour i)).sum

/-- `PointToLineDistanceSquared` via the implicit line form. -/
def PointToLineDistanceSquared (point lineStart lineEnd : Point) : ℝ :=
  let A : ℤ := lineEnd.y - lineStart.y
  let B : ℤ := lineStart.x - lineEnd.x
  let C : ℤ := lineEnd.x * lineStart.y - lineStart.x * lineEnd.y
  let denominatorSquared : ℝ := (A : ℝ) ^ 2 + (B : ℝ) ^ 2
  if denominatorSquared < 1e-9 then 0
  else
    let distance : ℝ := (A : ℝ) * (point.x : ℝ) + (B : ℝ) * (point.y : ℝ) + (C : ℝ)
    distance ^ 2 / denominatorSquared

/-- `Cross(O, A, B)`, exact in `ℤ`. -/
def crossZ (O A B : Point) : ℤ :=
  (A.x - O.x) * (B.y - O.y) - (A.y - O.y) * (B.x - O.x)

/-- `CalculateCentroid`: rounded arithmetic mean. -/
def CalculateCentroid (contour : List Point) : Point :=
  if contour.length = 0 then ⟨0, 0⟩
  else
    ⟨dround (sumBy contour (fun p => (p.x : ℝ)) / (contour.length : ℝ)),
     dround (sumBy contour (fun p => (p.y : ℝ)) / (contour.length : ℝ))⟩

/-- `CalculateContourCentroid`: shoelace centroid of the contour, with an
arithmetic-mean fallback (truncating casts) when the signed area is within
`1e-6` of zero. -/
def CalculateContourCentroid (contour : List Point) : Point :=
  if contour.length = 0 then ⟨0, 0⟩
  else
    let n := contour.length
    let crossAt : ℕ → ℤ := fun i =>
      (getP contour i).x * (getP contour ((i + 1) % n)).y -
        (getP contour ((i + 1) % n)).x * (getP contour i).y
    let area : ℝ := (((List.range n).map fun i => (crossAt i : ℝ)).sum) * 0.5
    let centroidX : ℝ := ((List.range n).map fun i =>
      (((getP contour i).x + (getP contour ((i + 1) % n)).x : ℤ) : ℝ) * (crossAt i : ℝ)).sum
    let centroidY : ℝ := ((List.range n).map fun i =>
      (((getP contour i).y + (getP contour ((i + 1) % n)).y : ℤ) : ℝ) * (crossAt i : ℝ)).sum
    if |area| < 1e-6 then
      ⟨dtrunc (sumBy contour (fun p => (p.x : ℝ)) / (n : ℝ)),
       dtrunc (sumBy contour (fun p => (p.y : ℝ)) / (n : ℝ))⟩
    else
      let factor : ℝ := 1 / (6 * area)
      ⟨dtrunc (centroidX * factor), dtrunc (centroidY * factor)⟩

/-- `CalculateCornerAngleFast`: arccos of the clamped normalized dot product
of the two edge vectors at `current`. -/
def CalculateCornerAngleFast (prev current next : Point) : ℝ :=
  let dx1 : ℝ := ((prev.x - current.x : ℤ) : ℝ)
  let dy1 : ℝ := ((prev.y - current.y : ℤ) : ℝ)
  let dx2 : ℝ := ((next.x - current.x : ℤ) : ℝ)
  let dy2 : ℝ := ((next.y - current.y : ℤ) : ℝ)
  let dot := dx1 * dx2 + dy1 * dy2
  let len1 := Real.sqrt (dx1 ^ 2 + dy1 ^ 2)
  let len2 := Real.sqrt (dx2 ^ 2 + dy2 ^ 2)
  if len1 < 1e-10 ∨ len2 < 1e-10 then 0
  else Real.arccos (max (-1) (min 1 (dot / (len1 * len2))))

/-- One `push_back` of the monotone-chain hull construction, preceded by the
pop-while-not-counterclockwise loop.  The accumulator is kept reversed (head
is the most recently pushed point). -/
def hullPush : List Point → Point → List Point
  | b :: a :: rest, p =>
    if crossZ a b p ≤ 0 then hullPush (a :: rest) p else p :: b :: a :: rest
  | acc, p => p :: acc

/-- `ConvexHull`: Andrew's monotone chain over the lexicographically sorted
copy of the points. -/
def ConvexHull (points : List Point) : List Point :=
  if points.length < 3 then points
  else
    let sorted := sortByComp
      (fun a b => decide (a.x < b.x ∨ (a.x = b.x ∧ a.y < b.y))) points
    let lower := (sorted.foldl hullPush []).reverse
    let upper := (sorted.reverse.foldl hullPush []).reverse
    lower.dropLast ++ upper.dropLast

/-- The quadrant bucket of the boundary sort comparator. -/
def quadrantOf (dx dy : ℤ) : ℤ :=
  if 0 ≤ dx then (if 0 ≤ dy then 0 else 3) else (if 0 ≤ dy then 1 else 2)

/-- `SortBoundaryPointsRadix`: integer centroid, then sort by quadrant and a
cross-product angular proxy. -/
def SortBoundaryPointsRadix (boundary : List Point) : List Point :=
  if boundary.length < 3 then boundary
  else
    let centerX := Int.tdiv (boundary.map Point.x).sum (boundary.length : ℤ)
    let centerY := Int.tdiv (boundary.map Point.y).sum (boundary.length : ℤ)
    sortByComp (fun a b =>
      let dxa := a.x - centerX
      let dya := a.y - centerY
      let dxb := b.x - centerX
      let dyb := b.y - centerY
      let qa := quadrantOf dxa dya
      let qb := quadrantOf dxb dyb
      if qa ≠ qb then decide (qa < qb) else decide (dya * dxb < dxa * dyb))
      boundary

/-- `CleanupCorners`: drop a corner lying within the merge distance of an
already kept one (`1` pixel² for at most 4 corners, `64` otherwise); the
squared distances are exact integers. -/
def CleanupCorners (corners : List Point) : List Point :=
  let minDistanceSquared : ℤ := if corners.length ≤ 4 then 1 else 64
  corners.foldl (fun cleaned corner =>
    if cleaned.any fun kept =>
        (corner.x - kept.x) ^ 2 + (corner.y - kept.y) ^ 2 < minDistanceSquared then
      cleaned
    else cleaned ++ [corner]) []

/-- `SelectBestCorners`: always a 4-element list (the source's
`std::array<Point, 4>` with default-constructed `(0,0)` padding); for more
than 4 input corners, take the convex hull and keep the 4 corners of largest
`CalculateCornerAngleFast`, reordered by the boundary sort. -/
def SelectBestCorners (corners : List Point) : List Point :=
  if corners.length ≤ 4 then
    corners ++ List.replicate (4 - corners.length) ⟨0, 0⟩
  else
    let hull := ConvexHull corners
    if hull.length = 4 then hull
    else if 4 < hull.length then
      let n := hull.length
      let angleCorners : List (ℝ × Point) := (List.range n).map fun i =>
        (CalculateCornerAngleFast (getP hull ((i + n - 1) % n)) (getP hull i)
          (getP hull ((i + 1) % n)), getP hull i)
      let best := ((sortByComp (fun a b => decide (b.1 < a.1)) angleCorners).take 4).map
        fun pr => pr.2
      SortBoundaryPointsRadix best
    else List.replicate 4 ⟨0, 0⟩

/-- The inner maximum scan of `DouglasPeuckerRecursive`:
`maxDist = 0, maxIndex = start`, improved strictly over `i ∈ (start, end)`. -/
def maxDistScan (contour : List Point) (s e : ℕ) : ℝ × ℕ :=
  ((List.range (e - s - 1)).map fun k => s + 1 + k).foldl
    (fun md i =>
      let d := PointToLineDistanceSquared (getP contour i) (getP contour s)
        (getP contour e)
      if md.1 < d then (d, i) else md)
    (0, s)

/-- `DouglasPeuckerRecursive`, with the `keep` bit-vector as a function and an
explicit fuel bound on the recursion depth (`contour.length` always
suffices). -/
def DouglasPeuckerRecursive (contour : List Point) (epsilon : ℝ) :
    ℕ → ℕ → ℕ → (ℕ → Bool) → (ℕ → Bool)
  | 0, _, _, keep => keep
  | fuel + 1, start, endIdx, keep =>
    if endIdx - start ≤ 1 then keep
    else
      let md := maxDistScan contour start endIdx
      if epsilon * epsilon < md.1 then
        let keep1 : ℕ → Bool := fun i => if i = md.2 then true else keep i
        let keep2 := DouglasPeuckerRecursive contour epsilon fuel start md.2 keep1
        DouglasPeuckerRecursive contour epsilon fuel md.2 endIdx keep2
      else keep

/-- One full Douglas-Peucker pass at tolerance `epsilonValue`: endpoints kept,
recursive marking, then collection of the kept points in index order. -/
def dpApprox (contour : List Point) (epsilonValue : ℝ) : List Point :=
  let n := contour.length
  let keep0 : ℕ → Bool := fun i => decide (i = 0 ∨ i = n - 1)
  let keep := DouglasPeuckerRecursive contour epsilonValue n 0 (n - 1) keep0
  ((List.range n).filter keep).map (getP contour)

/-- `SmoothContourForRotation`: cyclic 7-point moving average with rounding. -/
def SmoothContourForRotation (contour : List Point) : List Point :=
  if contour.length < 3 then contour
  else
    let n := contour.length
    (List.range n).map fun (i : ℕ) =>
      let idxs := (intsFromTo (-3) 3).map fun j => ((i : ℤ) + j + n).toNat % n
      ⟨dround ((idxs.map fun idx => ((getP contour idx).x : ℝ)).sum / 7),
       dround ((idxs.map fun idx => ((getP contour idx).y : ℝ)).sum / 7)⟩

/-- `CalculateCurvature`: windowed discrete curvature, the cross product of
the chord vectors normalized by the mean chord length. -/
def CalculateCurvature (contour : List Point) (index : ℕ) (windowSize : ℤ) : ℝ :=
  if contour.length < 3 ∨ windowSize < 1 then 0
  else
    let n := contour.length
    let prev := getP contour (((index : ℤ) - windowSize + n).toNat % n)
    let curr := getP contour index
    let next := getP contour (((index : ℤ) + windowSize).toNat % n)
    let dx1 : ℝ := ((curr.x - prev.x : ℤ) : ℝ)
    let dy1 : ℝ := ((curr.y - prev.y : ℤ) : ℝ)
    let dx2 : ℝ := ((next.x - curr.x : ℤ) : ℝ)
    let dy2 : ℝ := ((next.y - curr.y : ℤ) : ℝ)
    let cross := dx1 * dy2 - dy1 * dx2
    let len1 := Real.sqrt (dx1 ^ 2 + dy1 ^ 2)
    let len2 := Real.sqrt (dx2 ^ 2 + dy2 ^ 2)
    if len1 < 1e-9 ∨ len2 < 1e-9 then 0
    else cross / ((len1 + len2) * 0.5)

/-- `std::greater` on `std::pair<double, size_t>`: lexicographic. -/
def pairGt (a b : ℝ × ℕ) : Prop := b.1 < a.1 ∨ (a.1 = b.1 ∧ b.2 < a.2)

/-- The greedy peak selection of `FindCornersRotationInvariant`: accept a peak
whose wrap-aware index distance to every already selected peak is at least
`minDistance`, stopping once 8 corners are selected. -/
def selectPeaks (n minDistance : ℕ) : List (ℝ × ℕ) → List ℕ → List ℕ
  | [], sel => sel
  | pk :: rest, sel =>
    let i := pk.2
    let tooClose := sel.any fun s =>
      decide (min (max i s - min i s) (n - (max i s - min i s)) < minDistance)
    let sel2 := if tooClose then sel else sel ++ [i]
    if 8 ≤ sel2.length then sel2 else selectPeaks n minDistance rest sel2

/-- `FindCornersRotationInvariant`: curvature local maxima above `0.05`,
sorted by strength, greedily separated, then restored to contour order. -/
def FindCornersRotationInvariant (contour : List Point) : List Point :=
  if contour.length < 8 then []
  else
    let n := contour.length
    let curvatures : List ℝ := (List.range n).map fun i =>
      |CalculateCurvature contour i 5|
    let curvAt : ℕ → ℝ := fun i => curvatures.getD i 0
    let minDistance : ℕ := n / 12
    let windowSize : ℤ := max 3 ((minDistance : ℤ) / 2)
    let peaks : List (ℝ × ℕ) := ((List.range n).filter fun i =>
      decide ((∀ j ∈ intsFromTo (-windowSize) windowSize,
        ¬ curvAt i < curvAt (((i : ℤ) + j + n).toNat % n)) ∧
        0.05 < curvAt i)).map fun i => (curvAt i, i)
    let sortedPeaks := sortByComp (fun a b => decide (pairGt a b)) peaks
    let selected := selectPeaks n minDistance sortedPeaks []
    (sortByComp (fun a b => decide (a < b)) selected).map (getP contour)

/-- `IsLikelyCircularContour`: relative standard deviation of the distances to
the mean center below `0.15`. -/
def IsLikelyCircularContour (contour : List Point) : Prop :=
  if contour.length < 8 then False
  else
    let n : ℝ := (contour.length : ℝ)
    let centerX := sumBy contour (fun p => (p.x : ℝ)) / n
    let centerY := sumBy contour (fun p => (p.y : ℝ)) / n
    let distances := contour.map fun p =>
      Real.sqrt (((p.x : ℝ) - centerX) ^ 2 + ((p.y : ℝ) - centerY) ^ 2)
    let meanDist := distances.sum / n
    let variance := ((distances.map fun d => (d - meanDist) ^ 2).sum) / n
    Real.sqrt variance / meanDist < 0.15

/-- `CalculateHuMoment`: central `(p,q)` moment normalized by
`size^((p+q)/2 + 1)`. -/
def CalculateHuMoment (contour : List Point) (p q : ℕ) : ℝ :=
  if contour.length = 0 then 0
  else
    let c := CalculateCentroid contour
    let moment := sumBy contour fun pt =>
      ((pt.x - c.x : ℤ) : ℝ) ^ p * ((pt.y - c.y : ℤ) : ℝ) ^ q
    let area : ℝ := (contour.length : ℝ)
    if 1e-9 < area then moment / Real.rpow area ((p + q : ℝ) / 2 + 1) else moment

/-- `IsRectangleUsingMoments`: combined moment-ratio, skewness, aspect and
ellipticity test. -/
def IsRectangleUsingMoments (contour : List Point) : Prop :=
  if contour.length < 8 then False
  else
    let m20 := CalculateHuMoment contour 2 0
    let m02 := CalculateHuMoment contour 0 2
    let m11 := CalculateHuMoment contour 1 1
    let m30 := CalculateHuMoment contour 3 0
    let m03 := CalculateHuMoment contour 0 3
    let m21 := CalculateHuMoment contour 2 1
    let m12 := CalculateHuMoment contour 1 2
    let hu1 := m20 + m02
    let hu2 := (m20 - m02) ^ 2 + 4 * m11 ^ 2
    let hu3 := (m30 - 3 * m12) ^ 2 + (3 * m21 - m03) ^ 2
    if hu1 < 1e-9 then False
    else
      let momentQuot := hu2 / (hu1 * hu1)
      let skewness := hu3 / Real.rpow hu1 1.5
      let aspectQuot := if 1e-9 < m02 then Real.sqrt (m20 / m02) else 1
      let ellipticity := hu2 / (hu1 * hu1)
      (0.003 ≤ momentQuot ∧ momentQuot ≤ 0.15) ∧ |skewness| < 0.15 ∧
        (0.2 < aspectQuot ∧ aspectQuot < 15) ∧ 0.002 < ellipticity

/-- `CalculateOrientation`: principal axis angle from the (unnormalized)
second central moments about the rounded centroid. -/
def CalculateOrientation (contour : List Point) : ℝ :=
  if contour.length < 3 then 0
  else
    let c := CalculateCentroid contour
    let m20 := sumBy contour fun p => ((p.x - c.x : ℤ) : ℝ) ^ 2
    let m02 := sumBy contour fun p => ((p.y - c.y : ℤ) : ℝ) ^ 2
    let m11 := sumBy contour fun p => ((p.x - c.x : ℤ) : ℝ) * ((p.y - c.y : ℤ) : ℝ)
    if |m20 - m02| < 1e-9 then 0
    else 0.5 * atan2R (2 * m11) (m20 - m02)

/-- `RotateContourToCanonical`: rotate about the rounded centroid,
re-discretizing with `floor(x + 0.5)`. -/
def RotateContourToCanonical (contour : List Point) (angle : ℝ) : List Point :=
  if contour.length = 0 ∨ |angle| < 1e-9 then contour
  else
    let c := CalculateCentroid contour
    contour.map fun p =>
      let x : ℝ := ((p.x : ℝ)) - ((c.x : ℝ))
      let y : ℝ := ((p.y : ℝ)) - ((c.y : ℝ))
      let rotX := x * Real.cos angle - y * Real.sin angle
      let rotY := x * Real.sin angle + y * Real.cos angle
      ⟨⌊rotX + (c.x : ℝ) + 0.5⌋, ⌊rotY + (c.y : ℝ) + 0.5⌋⟩

/-- `FindRectangleCornersMomentBased`: moment gate, canonical-frame rotation,
margin-1 bounding box, rotate the 4 corners back. -/
def FindRectangleCornersMomentBased (contour : List Point) : List Point :=
  if contour.length < 8 then []
  else if ¬ IsRectangleUsingMoments contour then []
  else
    let orientation := CalculateOrientation contour
    let rotated := RotateContourToCanonical contour (-orientation)
    let p0 := getP rotated 0
    let minX := ((rotated.map Point.x).foldl min p0.x) - 1
    let maxX := ((rotated.map Point.x).foldl max p0.x) + 1
    let minY := ((rotated.map Point.y).foldl min p0.y) - 1
    let maxY := ((rotated.map Point.y).foldl max p0.y) + 1
    RotateContourToCanonical
      [⟨minX, minY⟩, ⟨maxX, minY⟩, ⟨maxX, maxY⟩, ⟨minX, maxY⟩] orientation

/-- The sliding-window line extraction loop of `DetectLines`; the fuel bounds
the iteration count (`n` suffices since the stride is at least 3). -/
def detectLinesLoop (contour : List Point) (n windowSize stepSz : ℕ) :
    ℕ → ℕ → List (Point × Point)
  | 0, _ => []
  | fuel + 1, i =>
    if i < n then
      let rest := detectLinesLoop contour n windowSize stepSz fuel (i + stepSz)
      let endIdx := min (i + windowSize) n
      if endIdx - i < 4 then rest
      else
        let idxs := (List.range (endIdx - i)).map fun k => i + k
        let count : ℝ := ((endIdx - i : ℕ) : ℝ)
        let sumX := (idxs.map fun j => ((getP contour j).x : ℝ)).sum
        let sumXX := (idxs.map fun j => ((getP contour j).x : ℝ) ^ 2).sum
        let denominator := sumXX - count * (sumX / count) ^ 2
        if 1e-9 < |denominator| then
          let start := getP contour i
          let stop := getP contour (endIdx - 1)
          if 10 ≤ distR stop start then (start, stop) :: rest else rest
        else rest
    else []

/-- `DetectLines`: least-squares windows along the contour; a window is kept
when its regression denominator is nondegenerate and its endpoint span is at
least the minimum line length. -/
def DetectLines (contour : List Point) : List (Point × Point) :=
  if contour.length < 6 then []
  else
    let n := contour.length
    let windowSize : ℕ := max 6 (n / 8)
    detectLinesLoop contour n windowSize (windowSize / 2) (n + 1) 0

/-- `AreLinesPerpendicular`: normalized direction dot product within
`tolerance` of zero. -/
def AreLinesPerpendicular (line1 line2 : Point × Point) (tolerance : ℝ) : Prop :=
  let dx1 : ℝ := ((line1.2.x - line1.1.x : ℤ) : ℝ)
  let dy1 : ℝ := ((line1.2.y - line1.1.y : ℤ) : ℝ)
  let dx2 : ℝ := ((line2.2.x - line2.1.x : ℤ) : ℝ)
  let dy2 : ℝ := ((line2.2.y - line2.1.y : ℤ) : ℝ)
  let len1 := Real.sqrt (dx1 ^ 2 + dy1 ^ 2)
  let len2 := Real.sqrt (dx2 ^ 2 + dy2 ^ 2)
  if len1 < 1e-9 ∨ len2 < 1e-9 then False
  else |(dx1 / len1) * (dx2 / len2) + (dy1 / len1) * (dy2 / len2)| < tolerance

/-- The greedy perpendicular-line selection of
`FindRectangleUsingHoughLines`. -/
def selectRectLines : List (Point × Point) → List (Point × Point) →
    List (Point × Point)
  | [], sel => sel
  | l :: rest, sel =>
    if 4 ≤ sel.length then sel
    else
      let perpendicularCount := sel.countP fun s =>
        decide (AreLinesPerpendicular l s 0.15)
      let shouldAdd := sel.length = 0 ∨ (sel.length = 1 ∧ perpendicularCount = 1) ∨
        (sel.length = 2 ∧ perpendicularCount = 1) ∨
        (sel.length = 3 ∧ perpendicularCount = 2)
      selectRectLines rest (if shouldAdd then sel ++ [l] else sel)

/-- The pairwise intersections of the 4 selected lines (a near-parallel
adjacent pair contributes no corner). -/
def lineCorners (sel : List (Point × Point)) : List Point :=
  (List.range 4).filterMap fun i =>
    let l1 := sel.getD i (⟨0, 0⟩, ⟨0, 0⟩)
    let l2 := sel.getD ((i + 1) % 4) (⟨0, 0⟩, ⟨0, 0⟩)
    let x1 : ℝ := (l1.1.x : ℝ)
    let y1 : ℝ := (l1.1.y : ℝ)
    let x2 : ℝ := (l1.2.x : ℝ)
    let y2 : ℝ := (l1.2.y : ℝ)
    let x3 : ℝ := (l2.1.x : ℝ)
    let y3 : ℝ := (l2.1.y : ℝ)
    let x4 : ℝ := (l2.2.x : ℝ)
    let y4 : ℝ := (l2.2.y : ℝ)
    let denom := (x1 - x2) * (y3 - y4) - (y1 - y2) * (x3 - x4)
    if 1e-9 < |denom| then
      let t := ((x1 - x3) * (y3 - y4) - (y1 - y3) * (x3 - x4)) / denom
      some ⟨dround (x1 + t * (x2 - x1)), dround (y1 + t * (y2 - y1))⟩
    else none

/-- `FindRectangleUsingHoughLines`. -/
def FindRectangleUsingHoughLines (contour : List Point) : List Point :=
  if contour.length < 8 then []
  else
    let lines := DetectLines contour
    if lines.length < 4 then []
    else
      let selectedLines := selectRectLines lines []
      if selectedLines.length = 4 then
        let corners := lineCorners selectedLines
        if corners.length = 4 then corners else []
      else []

/-- The fixed multiplier sequence of the Douglas-Peucker stage. -/
def epsilonMultipliers : List ℝ := [0.05, 0.1, 0.15, 0.2, 0.3, 0.5, 0.8, 1.0, 1.5, 2.0, 3.0]

/-- The multiplier loop of `ApproximateContour`: at each multiplier the result
is accepted when it has exactly 4 points, or failing that (at the same
multiplier) 5 to 12 points. -/
def dpLoop (contour : List Point) (epsilon perimeter : ℝ) :
    List ℝ → Option (List Point)
  | [] => none
  | multiplier :: rest =>
    let epsilonValue := max (epsilon * perimeter * multiplier) 2
    let approx := dpApprox contour epsilonValue
    if approx.length = 4 then some approx
    else if 5 ≤ approx.length ∧ approx.length ≤ 12 then some approx
    else dpLoop contour epsilon perimeter rest

/-- `ApproximateContour`: the ordered strategy chain — moment-based corners,
Hough line pairs, rotation-invariant curvature corners, the multi-epsilon
Douglas-Peucker loop, the convex-hull fallback, and a final fixed-tolerance
Douglas-Peucker pass. -/
def ApproximateContour (cfg : Config) (contour : List Point) (epsilon : ℝ) :
    List Point :=
  if contour.length < 4 then contour
  else
    let perimeter := CalculatePerimeter contour
    let mStage : Option (List Point) :=
      if 20 < contour.length ∧ ¬ IsLikelyCircularContour contour then
        let m := FindRectangleCornersMomentBased contour
        if m.length = 4 ∧ cfg.minArea ≤ CalculateArea m ∧
            CalculateArea m ≤ cfg.maxArea then some m else none
      else none
    match mStage with
    | some m => m
    | none =>
      let hStage : Option (List Point) :=
        if 30 < contour.length ∧ ¬ IsLikelyCircularContour contour then
          let h := FindRectangleUsingHoughLines contour
          if h.length = 4 then some h else none
        else none
      match hStage with
      | some h => h
      | none =>
        let smoothedContour := SmoothContourForRotation contour
        let rStage : Option (List Point) :=
          if 50 < smoothedContour.length then
            let r := FindCornersRotationInvariant smoothedContour
            if 4 ≤ r.length ∧ r.length ≤ 8 then some r else none
          else none
        match rStage with
        | some r => r
        | none =>
          match dpLoop contour epsilon perimeter epsilonMultipliers with
          | some approx => approx
          | none =>
            let hull := ConvexHull contour
            if 4 ≤ hull.length ∧ hull.length ≤ 8 then hull
            else dpApprox contour (max (epsilon * perimeter) 3)

/-- `ExtractBoundary` of the rectangle detector: the 8-neighbour filter
followed by the boundary sort. -/
def ExtractBoundary (region : List Point) (img : Image) : List Point :=
  let boundary := region.filter (isBoundaryPoint img)
  if 0 < boundary.length then SortBoundaryPointsRadix boundary else boundary

/-- `FindContours` of the rectangle detector: unvisited white seeds, flood
fill, keep regions of at least 50 pixels with boundaries of at least 8
points. -/
def FindContours (img : Image) : List (List Point) :=
  ((yxPairs img).foldl (findContoursStep img 50 ExtractBoundary)
    ((fun _ _ => false), [])).2

/-- `IsCircularShape`: area-ratio or circularity evidence that the raw
contour is a circle rather than the 4-gon that approximates it. -/
def IsCircularShape (contour approx : List Point) : Prop :=
  let contourArea := CalculateArea contour
  let approxArea := CalculateArea approx
  (0 < contourArea ∧ 0 < approxArea ∧ 1.3 < contourArea / approxArea) ∨
  (let perimeter := CalculatePerimeter contour
   0 < contourArea ∧ 0 < perimeter ∧
     (perimeter * perimeter) / (4 * Real.pi * contourArea) < 1.2)

/-- Length of side `i` of a quadrilateral (cyclic). -/
def sideLen (quad : List Point) (i : ℕ) : ℝ :=
  distR (getP quad ((i + 1) % 4)) (getP quad i)

/-- Unit direction of side `i` of a quadrilateral. -/
def sideDir (quad : List Point) (i : ℕ) : ℝ × ℝ :=
  let dx : ℝ := (((getP quad ((i + 1) % 4)).x - (getP quad i).x : ℤ) : ℝ)
  let dy : ℝ := (((getP quad ((i + 1) % 4)).y - (getP quad i).y : ℤ) : ℝ)
  (dx / sideLen quad i, dy / sideLen quad i)

/-- `IsValidQuadrilateral`: no degenerate side, and both opposite-side
unit-direction dot products within `0.35` of `±1`. -/
def IsValidQuadrilateral (quad : List Point) : Prop :=
  quad.length = 4 ∧
  (∀ i ∈ List.range 4, ¬ sideLen quad i < 1e-9) ∧
  (let dot1 := (sideDir quad 0).1 * (sideDir quad 2).1 +
     (sideDir quad 0).2 * (sideDir quad 2).2
   let dot2 := (sideDir quad 1).1 * (sideDir quad 3).1 +
     (sideDir quad 1).2 * (sideDir quad 3).2
   |(|dot1| - 1)| < 0.35 ∧ |(|dot2| - 1)| < 0.35)

/-- Deviation of corner `i` of a quadrilateral from a right angle. -/
def cornerDeviation (quad : List Point) (i : ℕ) : ℝ :=
  |CalculateCornerAngleFast (getP quad ((i + 3) % 4)) (getP quad i)
    (getP quad ((i + 1) % 4)) - Real.pi / 2|

/-- Number of corners within `1.0` radian of a right angle. -/
def validCornerCount (quad : List Point) : ℕ :=
  (List.range 4).countP fun i => decide (cornerDeviation quad i < 1)

/-- Mean corner deviation (the source multiplies the sum by `0.25`). -/
def avgAngleDeviation (quad : List Point) : ℝ :=
  (((List.range 4).map (cornerDeviation quad)).sum) * 0.25

/-- Axis-aligned bounding-box area of the polygon vertices. -/
def boundingBoxArea (approx : List Point) : ℝ :=
  let p0 := getP approx 0
  let minX := (approx.map Point.x).foldl min p0.x
  let maxX := (approx.map Point.x).foldl max p0.x
  let minY := (approx.map Point.y).foldl min p0.y
  let maxY := (approx.map Point.y).foldl max p0.y
  ((maxX - minX : ℤ) : ℝ) * ((maxY - minY : ℤ) : ℝ)

/-- Polygon area over bounding-box area. -/
def rectangularity (approx : List Point) : ℝ :=
  CalculateArea approx / boundingBoxArea approx

/-- `IsRectangle`: the acceptance chain — simplification to 4–6 vertices,
reduction to exactly 4, area window, near-parallel opposite sides, the
anti-circularity test, the corner-angle test, and the rectangularity floor.
Each conjunct is one of the source's early `return false` guards. -/
def IsRectangle (cfg : Config) (contour : List Point) : Prop :=
  4 ≤ contour.length ∧
  (let approx0 := ApproximateContour cfg contour cfg.approxEpsilon
   (4 ≤ approx0.length ∧ approx0.length ≤ 6) ∧
   (let approx := if 4 < approx0.length then SelectBestCorners approx0 else approx0
    approx.length = 4 ∧
    (let area := CalculateArea approx
     (cfg.minArea ≤ area ∧ area ≤ cfg.maxArea) ∧
     IsValidQuadrilateral approx ∧
     ¬ IsCircularShape contour approx ∧
     (2 ≤ validCornerCount approx ∧ avgAngleDeviation approx ≤ 0.7) ∧
     0.15 ≤ rectangularity approx)))

/-- Unit direction vector of edge `i` of the cleaned 4-corner polygon (zero
for a zero-length edge). -/
def edgeVec (c : List Point) (i : ℕ) : ℝ × ℝ :=
  let dx : ℝ := (((getP c ((i + 1) % 4)).x - (getP c i).x : ℤ) : ℝ)
  let dy : ℝ := (((getP c ((i + 1) % 4)).y - (getP c i).y : ℤ) : ℝ)
  let length := Real.sqrt (dx ^ 2 + dy ^ 2)
  if 0 < length then (dx / length, dy / length) else (0, 0)

/-- `CreateRectangle`: re-simplify, merge near-duplicate corners, reduce to 4
corners if needed, then extract center (shoelace centroid of the original
contour), width/height (opposite-edge-pair averages, larger first) and angle
(atan2 of the longer pair's direction).  `Rectangle rect;` leaves its numeric
members indeterminate in C++; the embedding models them as zero. -/
def CreateRectangle (cfg : Config) (contour : List Point) : Rectangle :=
  let rect0 : Rectangle := ⟨⟨0, 0⟩, 0, 0, 0⟩
  let approx := ApproximateContour cfg contour cfg.approxEpsilon
  let clean0 := CleanupCorners approx
  if clean0.length < 3 then rect0
  else if clean0.length = 3 then rect0
  else
    let cleanCorners :=
      if 4 < clean0.length then
        (SelectBestCorners clean0).filter fun c => decide (c.x ≠ 0 ∨ c.y ≠ 0)
      else clean0
    if 4 < clean0.length ∧ cleanCorners.length ≠ 4 then rect0
    else if cleanCorners.length = 4 then
      let centroid := CalculateContourCentroid contour
      let avgLength1 := (sideLen cleanCorners 0 + sideLen cleanCorners 2) / 2
      let avgLength2 := (sideLen cleanCorners 1 + sideLen cleanCorners 3) / 2
      if avgLength2 < avgLength1 then
        ⟨centroid, dtrunc avgLength1, dtrunc avgLength2,
          atan2R (edgeVec cleanCorners 0).2 (edgeVec cleanCorners 0).1⟩
      else
        ⟨centroid, dtrunc avgLength2, dtrunc avgLength1,
          atan2R (edgeVec cleanCorners 1).2 (edgeVec cleanCorners 1).1⟩
    else rect0

/-- `PreprocessImage` of the rectangle detector: blur (σ = 0.8), threshold at
127. -/
def PreprocessImage (img : Image) : Image :=
  let blurred := ApplyGaussianBlur img 0.8
  ⟨img.width, img.height, fun y x =>
    if 0 ≤ y ∧ y < img.height ∧ 0 ≤ x ∧ x < img.width then
      if 127 < blurred.pixels y x then 255 else 0
    else img.pixels y x⟩

/-- `PreprocessImageEnhanced`: Sobel magnitude on the interior (fresh image,
zero elsewhere), light blur (σ = 0.5), threshold at 100. -/
def PreprocessImageEnhanced (img : Image) : Image :=
  let enhanced : Image := ⟨img.width, img.height, fun y x =>
    if 1 ≤ y ∧ y < img.height - 1 ∧ 1 ≤ x ∧ x < img.width - 1 then
      let gx : ℤ := -img.pixels (y-1) (x-1) + img.pixels (y-1) (x+1)
        - 2 * img.pixels y (x-1) + 2 * img.pixels y (x+1)
        - img.pixels (y+1) (x-1) + img.pixels (y+1) (x+1)
      let gy : ℤ := -img.pixels (y-1) (x-1) - 2 * img.pixels (y-1) x
        - img.pixels (y-1) (x+1) + img.pixels (y+1) (x-1)
        + 2 * img.pixels (y+1) x + img.pixels (y+1) (x+1)
      min 255 (dtrunc (Real.sqrt ((gx : ℝ) ^ 2 + (gy : ℝ) ^ 2)))
    else 0⟩
  let blurred := ApplyGaussianBlur enhanced 0.5
  ⟨img.width, img.height, fun y x =>
    if 0 ≤ y ∧ y < img.height ∧ 0 ≤ x ∧ x < img.width then
      if 100 < blurred.pixels y x then 255 else 0
    else img.pixels y x⟩

/-- `ApplyMorphologyClose`: dilation then erosion on the kernel-interior
region; border pixels keep their input values. -/
def ApplyMorphologyClose (img : Image) (kernelSize : ℤ) : Image :=
  if kernelSize < 1 then img
  else
    let halfKernel := kernelSize / 2
    let interior : ℤ → ℤ → Prop := fun y x =>
      halfKernel ≤ y ∧ y < img.height - halfKernel ∧
        halfKernel ≤ x ∧ x < img.width - halfKernel
    let dilated : ℤ → ℤ → ℤ := fun y x =>
      if interior y x then
        (((intsFromTo (-halfKernel) halfKernel).flatMap fun dy =>
          (intsFromTo (-halfKernel) halfKernel).map fun dx =>
            img.pixels (y + dy) (x + dx))).foldl max 0
      else img.pixels y x
    ⟨img.width, img.height, fun y x =>
      if interior y x then
        (((intsFromTo (-halfKernel) halfKernel).flatMap fun dy =>
          (intsFromTo (-halfKernel) halfKernel).map fun dx =>
            dilated (y + dy) (x + dx))).foldl min 255
      else img.pixels y x⟩

/-- `ApplyMorphologyOpen`: erosion then dilation on the kernel-interior
region. -/
def ApplyMorphologyOpen (img : Image) (kernelSize : ℤ) : Image :=
  if kernelSize < 1 then img
  else
    let halfKernel := kernelSize / 2
    let interior : ℤ → ℤ → Prop := fun y x =>
      halfKernel ≤ y ∧ y < img.height - halfKernel ∧
        halfKernel ≤ x ∧ x < img.width - halfKernel
    let eroded : ℤ → ℤ → ℤ := fun y x =>
      if interior y x then
        (((intsFromTo (-halfKernel) halfKernel).flatMap fun dy =>
          (intsFromTo (-halfKernel) halfKernel).map fun dx =>
            img.pixels (y + dy) (x + dx))).foldl min 255
      else img.pixels y x
    ⟨img.width, img.height, fun y x =>
      if interior y x then
        (((intsFromTo (-halfKernel) halfKernel).flatMap fun dy =>
          (intsFromTo (-halfKernel) halfKernel).map fun dx =>
            eroded (y + dy) (x + dx))).foldl max 0
      else img.pixels y x⟩

/-- `PreprocessImageMorphological`: threshold at 127, close (kernel 3), open
(kernel 2). -/
def PreprocessImageMorphological (img : Image) : Image :=
  let thresholded : Image := ⟨img.width, img.height, fun y x =>
    if 0 ≤ y ∧ y < img.height ∧ 0 ≤ x ∧ x < img.width then
      if 127 < img.pixels y x then 255 else 0
    else img.pixels y x⟩
  ApplyMorphologyOpen (ApplyMorphologyClose thresholded 3) 2

/-- `ProcessContoursAtScale`: classify each contour, build its rectangle,
rescale (a no-op at scale 1), and keep it when both extents are positive.
The OpenMP branch (`contours.size() > 10`) writes into index-addressed slots
and compacts in index order, which equals the sequential branch; both are
embedded as this single filter. -/
def ProcessContoursAtScale (cfg : Config) (contours : List (List Point))
    (scale : ℝ) : List Rectangle :=
  contours.filterMap fun contour =>
    if IsRectangle cfg contour then
      let rect0 := CreateRectangle cfg contour
      let rect :=
        if scale ≠ 1 then
          ⟨⟨dtrunc ((rect0.center.x : ℝ) / scale), dtrunc ((rect0.center.y : ℝ) / scale)⟩,
            dtrunc ((rect0.width : ℝ) / scale), dtrunc ((rect0.height : ℝ) / scale),
            rect0.angle⟩
        else rect0
      if 0 < rect.width ∧ 0 < rect.height then some rect else none
    else none

/-- `DetectRectanglesUsingHoughLines` returns an empty list. -/
def DetectRectanglesUsingHoughLines (_img : Image) : List Rectangle := []

/-- The pair condition of `RemoveDuplicateRectangles`: centers closer than a
quarter of the mean extent and similar areas. -/
def rectDupCond (a b : Rectangle) : Bool :=
  let centerDist := distR a.center b.center
  let avgSize : ℝ := (((a.width + a.height + b.width + b.height : ℤ)) : ℝ) / 4
  let areaA : ℝ := ((a.width * a.height : ℤ) : ℝ)
  let areaB : ℝ := ((b.width * b.height : ℤ) : ℝ)
  decide (centerDist < avgSize * 0.25 ∧ 0.5 < min areaA areaB / max areaA areaB)

/-- `RemoveDuplicateRectangles`: sort by area descending, then the marking
sweep. -/
def RemoveDuplicateRectangles (rectangles : List Rectangle) : List Rectangle :=
  if rectangles.length ≤ 1 then rectangles
  else
    let sorted := sortByComp
      (fun a b => decide (b.width * b.height < a.width * a.height)) rectangles
    sweepKeep rectDupCond (sorted.map fun r => (r, false))

/-- `DetectRectangles`: the three preprocessing strategies plus the (empty)
Hough strategy, deduplicated. -/
def DetectRectangles (cfg : Config) (img : Image) : List Rectangle :=
  let rects1 := ProcessContoursAtScale cfg (FindContours (PreprocessImage img)) 1
  let rects2 := ProcessContoursAtScale cfg (FindContours (PreprocessImageEnhanced img)) 1
  let rects3 := ProcessContoursAtScale cfg (FindContours (PreprocessImageMorphological img)) 1
  let houghRects := DetectRectanglesUsingHoughLines img
  RemoveDuplicateRectangles (rects1 ++ rects2 ++ rects3 ++ houghRects)

/-- The full member state of a `RectangleDetector` instance: the three
configuration fields and the two pre-allocated (never read or written)
caches. -/
structure DetectorState where
  cfg : Config
  distanceCache : List ℝ
  angleCache : List ℝ

/-- The method call `detector.DetectRectangles(image)` as a state
transformer: the body reads the configuration fields and assigns no member,
so the state component is returned unchanged. -/
def DetectRectanglesM (s : DetectorState) (img : Image) :
    List Rectangle × DetectorState :=
  (DetectRectangles s.cfg img, s)

end RectangleDetector

/-! ### Specification-side definitions

Named per the specification's wording, for comparison with the source-derived
definitions above. -/

namespace ObloidDetector

/-- The `A` coefficient of the Kasa normal-equations system. -/
def kasaA (c : List Point) : ℝ :=
  2 * ((c.length : ℝ) * sumBy c (fun p => (p.x : ℝ) ^ 2) -
    sumBy c (fun p => (p.x : ℝ)) * sumBy c (fun p => (p.x : ℝ)))

/-- The `B` coefficient of the Kasa normal-equations system. -/
def kasaB (c : List Point) : ℝ :=
  2 * ((c.length : ℝ) * sumBy c (fun p => (p.x : ℝ) * (p.y : ℝ)) -
    sumBy c (fun p => (p.x : ℝ)) * sumBy c (fun p => (p.y : ℝ)))

/-- The `C` coefficient of the Kasa normal-equations system. -/
def kasaC (c : List Point) : ℝ :=
  2 * ((c.length : ℝ) * sumBy c (fun p => (p.y : ℝ) ^ 2) -
    sumBy c (fun p => (p.y : ℝ)) * sumBy c (fun p => (p.y : ℝ)))

/-- The `D` right-hand side of the Kasa normal-equations system. -/
def kasaD (c : List Point) : ℝ :=
  (c.length : ℝ) * (sumBy c (fun p => (p.x : ℝ) ^ 3) +
      sumBy c (fun p => (p.x : ℝ) * (p.y : ℝ) ^ 2)) -
    sumBy c (fun p => (p.x : ℝ)) *
      (sumBy c (fun p => (p.x : ℝ) ^ 2) + sumBy c (fun p => (p.y : ℝ) ^ 2))

/-- The `E` right-hand side of the Kasa normal-equations system. -/
def kasaE (c : List Point) : ℝ :=
  (c.length : ℝ) * (sumBy c (fun p => (p.y : ℝ) ^ 3) +
      sumBy c (fun p => (p.x : ℝ) ^ 2 * (p.y : ℝ))) -
    sumBy c (fun p => (p.y : ℝ)) *
      (sumBy c (fun p => (p.x : ℝ) ^ 2) + sumBy c (fun p => (p.y : ℝ) ^ 2))

/-- The 2×2 normal-equations determinant `A·C − B·B`. -/
def kasaDet (c : List Point) : ℝ := kasaA c * kasaC c - kasaB c * kasaB c

end ObloidDetector

/-- A 6-point rectilinear staircase contour: the concrete input of the
Douglas-Peucker multiplier-loop analysis. -/
def dpStairContour : List Point :=
  [⟨0, 0⟩, ⟨40, 0⟩, ⟨40, 8⟩, ⟨80, 8⟩, ⟨80, 40⟩, ⟨0, 40⟩]

/-- A 10×6 axis-aligned rectangle contour: the concrete input of the
`CreateRectangle` analysis. -/
def rect106 : List Point := [⟨0, 0⟩, ⟨10, 0⟩, ⟨10, 6⟩, ⟨0, 6⟩]

/-- The cyclic cross term `xᵢ·yᵢ₊₁ − xᵢ₊₁·yᵢ` of a contour. -/
def contourCrossAt (c : List Point) (i : ℕ) : ℤ :=
  (RectangleDetector.getP c i).x * (RectangleDetector.getP c ((i + 1) % c.length)).y -
    (RectangleDetector.getP c ((i + 1) % c.length)).x * (RectangleDetector.getP c i).y

/-- The signed (shoelace) area of a contour, per the specification's
centroid formula. -/
def signedAreaR (c : List Point) : ℝ :=
  (((List.range c.length).map fun i => (contourCrossAt c i : ℝ)).sum) * 0.5

/-- The truncated arithmetic mean of the contour points. -/
def meanPointTrunc (c : List Point) : Point :=
  ⟨dtrunc (sumBy c (fun p => (p.x : ℝ)) / (c.length : ℝ)),
   dtrunc (sumBy c (fun p => (p.y : ℝ)) / (c.length : ℝ))⟩

/-- The signed-area (shoelace) centroid of a contour, per the specification's
formula. -/
def shoelaceCentroidPoint (c : List Point) : Point :=
  let n := c.length
  ⟨dtrunc (((List.range n).map fun i =>
      (((RectangleDetector.getP c i).x + (RectangleDetector.getP c ((i + 1) % n)).x : ℤ) : ℝ) *
        (contourCrossAt c i : ℝ)).sum * (1 / (6 * signedAreaR c))),
   dtrunc (((List.range n).map fun i =>
      (((RectangleDetector.getP c i).y + (RectangleDetector.getP c ((i + 1) % n)).y : ℤ) : ℝ) *
        (contourCrossAt c i : ℝ)).sum * (1 / (6 * signedAreaR c)))⟩

/-- A point within raster bounds carrying foreground intensity. -/
def PtInv (img : Image) (p : Point) : Prop :=
  0 ≤ p.x ∧ p.x < img.width ∧ 0 ≤ p.y ∧ p.y < img.height ∧
    img.pixels p.y p.x = 255

/-- The invariant of every segment ever pushed on the flood-fill stack: an
in-bounds row, in-bounds x-range, and all covered pixels white. -/
def SegInv (img : Image) (seg : ScanlineSegment) : Prop :=
  0 ≤ seg.y ∧ seg.y < img.height ∧ 0 ≤ seg.x1 ∧ seg.x2 ≤ img.width - 1 ∧
    ∀ x, seg.x1 ≤ x → x ≤ seg.x2 → img.pixels seg.y x = 255

/-! ### Claim theorems -/

/-- C2: for every image and configuration, two successive calls of
`DetectRectangles` (resp. `DetectObloids`) on the same image return identical
candidate lists, and a call leaves every configuration field (and the unused
caches) unchanged; the image, passed by `const` reference and modelled as a
value, is not modified. -/
theorem detect_calls_idempotent_and_pure (rs : RectangleDetector.DetectorState)
    (os : ObloidDetector.DetectorState) (img : Image) :
    (RectangleDetector.DetectRectanglesM rs img).1 =
      (RectangleDetector.DetectRectanglesM
        (RectangleDetector.DetectRectanglesM rs img).2 img).1 ∧
    (RectangleDetector.DetectRectanglesM rs img).2 = rs ∧
    (ObloidDetector.DetectObloidsM os img).1 =
      (ObloidDetector.DetectObloidsM
        (ObloidDetector.DetectObloidsM os img).2 img).1 ∧
    (ObloidDetector.DetectObloidsM os img).2 = os :=
  ⟨rfl, rfl, rfl, rfl⟩

open ObloidDetector in
/-- C7: `FitCircleToContour` on a contour of at least 3 points picks the
rounded centroid as center when the normal-equations determinant is within
`1e-9` of zero and the rounded Cramer's-rule solution otherwise; in both
cases the radius is the rounded mean distance from the chosen center; a
contour of fewer than 3 points yields the zero candidate rather than an
error. -/
theorem FitCircleToContour_spec (c : List Point) :
    (c.length < 3 → FitCircleToContour c = ⟨⟨0, 0⟩, 0, 0⟩) ∧
    (3 ≤ c.length →
      (FitCircleToContour c).radius =
        EstimateRadius c (FitCircleToContour c).center ∧
      (|kasaDet c| < 1e-9 →
        (FitCircleToContour c).center = CalculateCentroid c) ∧
      (¬ |kasaDet c| < 1e-9 →
        (FitCircleToContour c).center =
          ⟨dround ((kasaD c * kasaC c - kasaE c * kasaB c) / kasaDet c),
           dround ((kasaA c * kasaE c - kasaB c * kasaD c) / kasaDet c)⟩)) := by
  constructor
  · intro h
    simp only [FitCircleToContour, if_pos h]
  · intro h
    have h3 : ¬ c.length < 3 := by omega
    simp only [FitCircleToContour, if_neg h3, kasaDet, kasaA, kasaB, kasaC, kasaD,
      kasaE]
    refine ⟨by first | rfl | trivial, fun hdet => ?_, fun hdet => ?_⟩
    · simp only [if_pos hdet]
    · simp only [if_neg hdet]

open ObloidDetector in
/-- C7 witness: a concrete 3-point contour instantiating the second part of
`FitCircleToContour_spec`. -/
theorem FitCircleToContour_spec_witness :
    3 ≤ ([⟨0, 0⟩, ⟨2, 0⟩, ⟨1, 1⟩] : List Point).length ∧
    ((FitCircleToContour [⟨0, 0⟩, ⟨2, 0⟩, ⟨1, 1⟩]).radius =
        EstimateRadius [⟨0, 0⟩, ⟨2, 0⟩, ⟨1, 1⟩]
          (FitCircleToContour [⟨0, 0⟩, ⟨2, 0⟩, ⟨1, 1⟩]).center ∧
      (|kasaDet [⟨0, 0⟩, ⟨2, 0⟩, ⟨1, 1⟩]| < 1e-9 →
        (FitCircleToContour [⟨0, 0⟩, ⟨2, 0⟩, ⟨1, 1⟩]).center =
          CalculateCentroid [⟨0, 0⟩, ⟨2, 0⟩, ⟨1, 1⟩]) ∧
      (¬ |kasaDet [⟨0, 0⟩, ⟨2, 0⟩, ⟨1, 1⟩]| < 1e-9 →
        (FitCircleToContour [⟨0, 0⟩, ⟨2, 0⟩, ⟨1, 1⟩]).center =
          ⟨dround ((kasaD [⟨0, 0⟩, ⟨2, 0⟩, ⟨1, 1⟩] * kasaC [⟨0, 0⟩, ⟨2, 0⟩, ⟨1, 1⟩] -
              kasaE [⟨0, 0⟩, ⟨2, 0⟩, ⟨1, 1⟩] * kasaB [⟨0, 0⟩, ⟨2, 0⟩, ⟨1, 1⟩]) /
              kasaDet [⟨0, 0⟩, ⟨2, 0⟩, ⟨1, 1⟩]),
           dround ((kasaA [⟨0, 0⟩, ⟨2, 0⟩, ⟨1, 1⟩] * kasaE [⟨0, 0⟩, ⟨2, 0⟩, ⟨1, 1⟩] -
              kasaB [⟨0, 0⟩, ⟨2, 0⟩, ⟨1, 1⟩] * kasaD [⟨0, 0⟩, ⟨2, 0⟩, ⟨1, 1⟩]) /
              kasaDet [⟨0, 0⟩, ⟨2, 0⟩, ⟨1, 1⟩])⟩)) :=
  ⟨by decide, (FitCircleToContour_spec [⟨0, 0⟩, ⟨2, 0⟩, ⟨1, 1⟩]).2 (by decide)⟩

open ObloidDetector in
/-- C10: `CalculateCircularity` depends only on the number of contour points
(its area input is the point count and its perimeter input is derived from
that count), for at least 3 points it equals `1` exactly, and therefore the
circularity gate of `IsObloid` passes every such contour whenever the
threshold is at most `1`. -/
theorem CalculateCircularity_position_independent :
    (∀ c1 c2 : List Point, c1.length = c2.length →
      CalculateCircularity c1 = CalculateCircularity c2) ∧
    (∀ c : List Point, 3 ≤ c.length → CalculateCircularity c = 1) ∧
    (∀ (cfg : Config) (c : List Point), cfg.circularityThreshold ≤ 1 →
      3 ≤ c.length → ¬ CalculateCircularity c < cfg.circularityThreshold) := by
  have hval : ∀ c : List Point, 3 ≤ c.length → CalculateCircularity c = 1 := by
    intro c hc
    have h3 : ¬ c.length < 3 := by omega
    have h2 : ¬ c.length < 2 := by omega
    have hn : (3 : ℝ) ≤ (c.length : ℝ) := by exact_mod_cast hc
    have hpi : (3 : ℝ) < Real.pi := Real.pi_gt_three
    have hnpos : (0 : ℝ) < (c.length : ℝ) := by linarith
    have hpipos : (0 : ℝ) < Real.pi := by linarith
    set P : ℝ := 2 * Real.pi * Real.sqrt ((c.length : ℝ) / Real.pi) with hP
    have hPsq : P ^ 2 = 4 * Real.pi * (c.length : ℝ) := by
      have hx : (0 : ℝ) ≤ (c.length : ℝ) / Real.pi := by positivity
      have : P ^ 2 = 4 * Real.pi ^ 2 * ((c.length : ℝ) / Real.pi) := by
        rw [hP]
        rw [mul_pow, mul_pow, Real.sq_sqrt hx]
        ring
      rw [this]
      field_simp
      ring
    have hPnonneg : 0 ≤ P := by positivity
    have hPbig : ¬ P < 1e-9 := by
      intro hlt
      have h1 : P < 1 := lt_of_lt_of_le hlt (by norm_num)
      have h2 : P ^ 2 < 1 := by nlinarith
      have h36 : (36 : ℝ) ≤ P ^ 2 := by rw [hPsq]; nlinarith
      linarith
    simp only [CalculateCircularity, CalculateArea, CalculatePerimeter,
      if_neg h3, if_neg h2]
    rw [if_neg hPbig]
    have hne : 4 * Real.pi * (c.length : ℝ) ≠ 0 := by positivity
    calc 4 * Real.pi * (c.length : ℝ) / (P * P) =
        4 * Real.pi * (c.length : ℝ) / P ^ 2 := by ring_nf
      _ = 1 := by rw [hPsq]; exact div_self hne
  refine ⟨?_, hval, ?_⟩
  · intro c1 c2 h
    simp only [CalculateCircularity, CalculateArea, CalculatePerimeter, h]
  · intro cfg c hthr hc
    rw [hval c hc]
    linarith

open ObloidDetector in
/-- C10 witness: two different concrete 3-point contours with equal
circularity `1`, passing the gate at threshold `1`. -/
theorem CalculateCircularity_position_independent_witness :
    (([⟨0, 0⟩, ⟨5, 0⟩, ⟨0, 5⟩] : List Point).length =
        ([⟨9, 9⟩, ⟨1, 2⟩, ⟨3, 4⟩] : List Point).length ∧
      CalculateCircularity [⟨0, 0⟩, ⟨5, 0⟩, ⟨0, 5⟩] =
        CalculateCircularity [⟨9, 9⟩, ⟨1, 2⟩, ⟨3, 4⟩]) ∧
    (3 ≤ ([⟨0, 0⟩, ⟨5, 0⟩, ⟨0, 5⟩] : List Point).length ∧
      CalculateCircularity [⟨0, 0⟩, ⟨5, 0⟩, ⟨0, 5⟩] = 1) ∧
    ((⟨10, 100, 1, 0.7⟩ : Config).circularityThreshold ≤ 1 ∧
      ¬ CalculateCircularity [⟨9, 9⟩, ⟨1, 2⟩, ⟨3, 4⟩] <
          (⟨10, 100, 1, 0.7⟩ : Config).circularityThreshold) :=
  ⟨⟨by decide, CalculateCircularity_position_independent.1
      [⟨0, 0⟩, ⟨5, 0⟩, ⟨0, 5⟩] [⟨9, 9⟩, ⟨1, 2⟩, ⟨3, 4⟩] (by decide)⟩,
    ⟨by decide, CalculateCircularity_position_independent.2.1
      [⟨0, 0⟩, ⟨5, 0⟩, ⟨0, 5⟩] (by decide)⟩,
    le_refl 1,
    CalculateCircularity_position_independent.2.2 ⟨10, 100, 1, 0.7⟩
      [⟨9, 9⟩, ⟨1, 2⟩, ⟨3, 4⟩] (le_refl 1) (by decide)⟩

open RectangleDetector in
/-- C4: `IsRectangle` accepts a contour if and only if the simplified polygon
is reduced to exactly 4 vertices (via `SelectBestCorners` when the 4–6 vertex
simplification has more than 4) and every test passes on it: shoelace area
within `[minArea, maxArea]`, both opposite-side unit-direction dot products
within `0.35` of `±1` (`IsValidQuadrilateral`), not classified circular
(`IsCircularShape` false: area ratio at most 1.3 and circularity at least 1.2
under the positivity guards), at least 2 of the 4 corner angles within `1.0`
radian of `π/2` with average deviation at most `0.7`, and rectangularity
(area over bounding-box area) at least `0.15`.  Failing any test the contour
is rejected. -/
theorem IsRectangle_characterization (cfg : Config) (c : List Point) :
    IsRectangle cfg c ↔
      (let approx0 := ApproximateContour cfg c cfg.approxEpsilon
       let quad := if 4 < approx0.length then SelectBestCorners approx0 else approx0
       4 ≤ c.length ∧ 4 ≤ approx0.length ∧ approx0.length ≤ 6 ∧
       quad.length = 4 ∧
       cfg.minArea ≤ CalculateArea quad ∧ CalculateArea quad ≤ cfg.maxArea ∧
       IsValidQuadrilateral quad ∧
       ¬ IsCircularShape c quad ∧
       2 ≤ validCornerCount quad ∧ avgAngleDeviation quad ≤ 0.7 ∧
       0.15 ≤ rectangularity quad) := by
  simp only [IsRectangle]
  tauto

/-! Helper lemmas about the deduplication sweep and list membership. -/

theorem markAll_map_fst (cond : α → α → Bool) (a : α) (l : List (α × Bool)) :
    (markAll cond a l).map Prod.fst = l.map Prod.fst := by
  simp [markAll]

theorem sweepKeep_subset (cond : α → α → Bool) :
    ∀ l : List (α × Bool), ∀ x ∈ sweepKeep cond l, x ∈ l.map Prod.fst := by
  intro l
  induction l using sweepKeep.induct cond with
  | case1 => simp [sweepKeep]
  | case2 pb rest h ih =>
    intro x hx
    rw [sweepKeep] at hx
    rw [if_pos h] at hx
    simpa using Or.inr (by simpa using ih x hx)
  | case3 pb rest h ih =>
    intro x hx
    rw [sweepKeep] at hx
    rw [if_neg h] at hx
    rcases List.mem_cons.mp hx with rfl | hx
    · simp
    · have := ih x hx
      rw [markAll_map_fst] at this
      simp only [List.map_cons]
      exact List.mem_cons_of_mem _ this

theorem mem_sortByComp (comp : α → α → Bool) (l : List α) (x : α) :
    x ∈ sortByComp comp l ↔ x ∈ l :=
  (List.mergeSort_perm l _).mem_iff

theorem sumBy_nonneg (l : List α) (f : α → ℝ) (h : ∀ x ∈ l, 0 ≤ f x) :
    0 ≤ sumBy l f := by
  unfold sumBy
  induction l with
  | nil => simp
  | cons a t ih =>
    simp only [List.map_cons, List.sum_cons]
    have ha := h a (by simp)
    have ht := ih fun x hx => h x (List.mem_cons_of_mem a hx)
    linarith

theorem CalculateCircleFitError_nonneg (c : List Point) (center : Point) (r : ℤ) :
    0 ≤ ObloidDetector.CalculateCircleFitError c center r := by
  unfold ObloidDetector.CalculateCircleFitError
  split_ifs
  · positivity
  · apply div_nonneg
    · exact sumBy_nonneg _ _ fun x _ => abs_nonneg _
    · positivity

theorem mem_RemoveDuplicateObloids (l : List Obloid) (o : Obloid)
    (h : o ∈ ObloidDetector.RemoveDuplicateObloids l) : o ∈ l := by
  unfold ObloidDetector.RemoveDuplicateObloids at h
  split_ifs at h with hlen
  · exact h
  · have hsub := sweepKeep_subset ObloidDetector.obloidDupCond _ o h
    rw [List.map_map] at hsub
    have : (Prod.fst ∘ fun o : Obloid => (o, false)) = id := rfl
    rw [this, List.map_id] at hsub
    exact (mem_sortByComp _ l o).mp hsub

theorem IsObloid_some (cfg : ObloidDetector.Config) (contour : List Point)
    (o : Obloid) (h : ObloidDetector.IsObloid cfg contour = some o) :
    ObloidDetector.ValidateCircleGeometry cfg contour o.center o.radius ∧
    o.confidence = max 0 (1 -
      ObloidDetector.CalculateCircleFitError contour o.center o.radius /
        (o.radius : ℝ)) := by
  simp only [ObloidDetector.IsObloid] at h
  split_ifs at h with h1 h2 h3 h4
  rw [Option.some_inj] at h
  subst h
  exact ⟨h3, rfl⟩

open ObloidDetector in
/-- C6: every obloid returned by `DetectObloids` has its radius within
`[minRadius, maxRadius]`, its confidence within
`[confidenceThreshold, 1]` with
`confidence = max(0, 1 − meanAbsoluteRadialError/radius)`, and a source
contour passing `ValidateCircleGeometry` (at least 70% of its points within
tolerance `max(3, 0.15·radius)` of the fitted radius). -/
theorem DetectObloids_output_valid (cfg : Config) (img : Image) :
    (DetectObloids cfg img).Forall fun o =>
      cfg.minRadius ≤ o.radius ∧ o.radius ≤ cfg.maxRadius ∧
      cfg.confidenceThreshold ≤ o.confidence ∧ o.confidence ≤ 1 ∧
      ∃ contour ∈ FindContours (PreprocessImage img),
        ValidateCircleGeometry cfg contour o.center o.radius ∧
        o.confidence = max 0 (1 -
          CalculateCircleFitError contour o.center o.radius / (o.radius : ℝ)) := by
  rw [List.forall_iff_forall_mem]
  intro o ho
  simp only [DetectObloids] at ho
  have hmem := mem_RemoveDuplicateObloids _ o ho
  rw [List.mem_filterMap] at hmem
  obtain ⟨contour, hcmem, hsome⟩ := hmem
  rcases hIs : IsObloid cfg contour with _ | ob
  · rw [hIs] at hsome; exact absurd hsome (by simp)
  · rw [hIs] at hsome
    simp only [] at hsome
    split_ifs at hsome with hguard
    rw [Option.some_inj] at hsome
    subst hsome
    obtain ⟨hval, hconf⟩ := IsObloid_some cfg contour ob hIs
    have hrad : 0 < ob.radius := by
      rcases hval with ⟨hne, -⟩
      push_neg at hne
      omega
    have hr1 : (1 : ℝ) ≤ (ob.radius : ℝ) := by exact_mod_cast hrad
    have herr := CalculateCircleFitError_nonneg contour ob.center ob.radius
    have hconf1 : ob.confidence ≤ 1 := by
      rw [hconf]
      have hdiv : 0 ≤ CalculateCircleFitError contour ob.center ob.radius /
          (ob.radius : ℝ) := div_nonneg herr (by linarith)
      have : (1 : ℝ) - CalculateCircleFitError contour ob.center ob.radius /
          (ob.radius : ℝ) ≤ 1 := by linarith
      exact max_le (by norm_num) this
    exact ⟨hguard.1, hguard.2.1, hguard.2.2, hconf1, contour, hcmem, hval, hconf⟩

/-! The index-marking sweep of the source's duplicate removal is equivalent to
the specification's greedy rule: a candidate is dropped exactly when an
earlier kept candidate conflicts with it. -/

theorem markAll_on_map (cond : α → α → Bool) (a : α) (rest : List α)
    (old : α → Bool) :
    markAll cond a (rest.map fun b => (b, old b)) =
      rest.map fun b => (b, old b || cond a b) := by
  simp only [markAll, List.map_map]
  rfl

theorem sweepKeep_eq_greedyKeep (cond : α → α → Bool) :
    ∀ (l : List α) (kept : List α),
      sweepKeep cond (l.map fun a => (a, kept.any fun k => cond k a)) =
        greedyKeep cond kept l := by
  intro l
  induction l with
  | nil => intro kept; simp [sweepKeep, greedyKeep]
  | cons a rest ih =>
    intro kept
    simp only [List.map_cons, sweepKeep, greedyKeep]
    by_cases h : kept.any fun k => cond k a
    · rw [if_pos h, if_pos h, ih]
    · rw [if_neg h, if_neg h]
      have hflag : ∀ b, ((kept.any fun k => cond k b) || cond a b) =
          (kept ++ [a]).any fun k => cond k b := by
        intro b
        simp [List.any_append]
      rw [markAll_on_map]
      have hmap : (rest.map fun b => (b, (kept.any fun k => cond k b) || cond a b)) =
          rest.map fun b => (b, (kept ++ [a]).any fun k => cond k b) := by
        apply List.map_congr_left
        intro b _
        rw [hflag]
      rw [hmap, ih]

theorem distR_comm (p q : Point) : distR p q = distR q p := by
  unfold distR
  ring_nf

theorem rectDupCond_symm (a b : Rectangle) :
    RectangleDetector.rectDupCond a b = RectangleDetector.rectDupCond b a := by
  unfold RectangleDetector.rectDupCond
  apply decide_eq_decide.mpr
  constructor
  · rintro ⟨h1, h2⟩
    refine ⟨?_, ?_⟩
    · rw [distR_comm]
      convert h1 using 2
      push_cast
      ring
    · rwa [min_comm, max_comm]
  · rintro ⟨h1, h2⟩
    refine ⟨?_, ?_⟩
    · rw [distR_comm]
      convert h1 using 2
      push_cast
      ring
    · rwa [min_comm, max_comm]

/-- C8 counterexample: `RemoveDuplicateObloids` applies no size-ratio test.
The pair of obloids with radii 100 and 1 and centers 10 apart has size ratio
`1/100 ≤ 0.5`, yet the later candidate is dropped — refuting the claim that a
later candidate is dropped exactly when the center-distance condition holds
AND the size ratio exceeds `0.5`. -/
theorem RemoveDuplicateObloids_no_ratio_gate_counterexample :
    ObloidDetector.RemoveDuplicateObloids
        [⟨⟨0, 0⟩, 100, 1⟩, ⟨⟨10, 0⟩, 1, 1⟩] = [⟨⟨0, 0⟩, 100, 1⟩] ∧
    ¬ (0.5 : ℝ) < min (100 : ℝ) 1 / max (100 : ℝ) 1 := by
  constructor
  · have hdist : distR ⟨0, 0⟩ ⟨10, 0⟩ = 10 := by
      unfold distR
      norm_num
      rw [show (100 : ℝ) = 10 ^ 2 by norm_num, Real.sqrt_sq (by norm_num : (0:ℝ) ≤ 10)]
    have hcond : ObloidDetector.obloidDupCond ⟨⟨0, 0⟩, 100, 1⟩ ⟨⟨10, 0⟩, 1, 1⟩ = true := by
      rw [ObloidDetector.obloidDupCond, decide_eq_true_eq, hdist]
      norm_num
    unfold ObloidDetector.RemoveDuplicateObloids
    rw [if_neg (by simp)]
    unfold sortByComp
    simp only [List.mergeSort, List.merge]
    norm_num
    simp [sweepKeep, markAll, hcond]
  · norm_num [min_def, max_def]

/-- C8 amended: deduplication sorts by size (area, resp. radius) descending
and then keeps a candidate exactly when no earlier kept candidate conflicts
with it; for rectangles the conflict condition is center distance below
`0.25` of the average extent AND area ratio above `0.5`, while for obloids it
is center distance below `0.7` of the radius sum with no size-ratio
condition; consequently two rectangle candidates satisfying the rectangle
condition collapse to exactly one. -/
theorem removeDuplicates_greedy_characterization :
    (∀ l : List Rectangle, RectangleDetector.RemoveDuplicateRectangles l =
      if l.length ≤ 1 then l
      else greedyKeep RectangleDetector.rectDupCond []
        (sortByComp (fun a b => decide (b.width * b.height < a.width * a.height)) l)) ∧
    (∀ l : List Obloid, ObloidDetector.RemoveDuplicateObloids l =
      if l.length ≤ 1 then l
      else greedyKeep ObloidDetector.obloidDupCond []
        (sortByComp (fun a b => decide (b.radius < a.radius)) l)) ∧
    (∀ a b : Rectangle, RectangleDetector.rectDupCond a b = true →
      (RectangleDetector.RemoveDuplicateRectangles [a, b]).length = 1) := by
  have hpair : ∀ (a b : Rectangle) (le : Rectangle → Rectangle → Bool),
      List.mergeSort [a, b] le = if le a b then [a, b] else [b, a] := by
    intro a b le
    simp [List.mergeSort, List.merge]
  refine ⟨?_, ?_, ?_⟩
  · intro l
    unfold RectangleDetector.RemoveDuplicateRectangles
    split_ifs with h
    · rfl
    · exact sweepKeep_eq_greedyKeep RectangleDetector.rectDupCond _ []
  · intro l
    unfold ObloidDetector.RemoveDuplicateObloids
    split_ifs with h
    · rfl
    · exact sweepKeep_eq_greedyKeep ObloidDetector.obloidDupCond _ []
  · intro a b hcond
    have hsym : RectangleDetector.rectDupCond b a = true := by
      rw [← rectDupCond_symm]
      exact hcond
    unfold RectangleDetector.RemoveDuplicateRectangles
    rw [if_neg (by simp)]
    unfold sortByComp
    rw [hpair]
    split_ifs with hle
    · simp [sweepKeep, markAll, hcond]
    · simp [sweepKeep, markAll, hsym]

/-- C8 witness: two concrete similar-size rectangles with centers one pixel
apart collapse to exactly one. -/
theorem removeDuplicates_greedy_characterization_witness :
    RectangleDetector.rectDupCond ⟨⟨0, 0⟩, 10, 10, 0⟩ ⟨⟨1, 0⟩, 10, 9, 0⟩ = true ∧
    (RectangleDetector.RemoveDuplicateRectangles
      [⟨⟨0, 0⟩, 10, 10, 0⟩, ⟨⟨1, 0⟩, 10, 9, 0⟩]).length = 1 := by
  have hdist : distR ⟨0, 0⟩ ⟨1, 0⟩ = 1 := by
    unfold distR
    norm_num
  have hcond : RectangleDetector.rectDupCond ⟨⟨0, 0⟩, 10, 10, 0⟩ ⟨⟨1, 0⟩, 10, 9, 0⟩ = true := by
    rw [RectangleDetector.rectDupCond, decide_eq_true_eq, hdist]
    norm_num
  exact ⟨hcond, removeDuplicates_greedy_characterization.2.2 _ _ hcond⟩

/-! Invariants of the scanline flood fill (claim C3). -/

namespace Scanline

theorem extendLeft_le (img : Image) (vis : Vis) (y : ℤ) :
    ∀ (fuel : ℕ) (x1 : ℤ), extendLeft img vis y fuel x1 ≤ x1 := by
  intro fuel
  induction fuel with
  | zero => intro x1; simp [extendLeft]
  | succ n ih =>
    intro x1
    rw [extendLeft]
    split_ifs with h
    · have := ih (x1 - 1)
      omega
    · omega

theorem extendLeft_nonneg (img : Image) (vis : Vis) (y : ℤ) :
    ∀ (fuel : ℕ) (x1 : ℤ), 0 ≤ x1 → 0 ≤ extendLeft img vis y fuel x1 := by
  intro fuel
  induction fuel with
  | zero => intro x1 h; simpa [extendLeft] using h
  | succ n ih =>
    intro x1 h
    rw [extendLeft]
    split_ifs with hc
    · exact ih (x1 - 1) (by omega)
    · exact h

theorem extendLeft_pixels (img : Image) (vis : Vis) (y : ℤ) :
    ∀ (fuel : ℕ) (x1 : ℤ), img.pixels y x1 = 255 →
      ∀ z, extendLeft img vis y fuel x1 ≤ z → z ≤ x1 → img.pixels y z = 255 := by
  intro fuel
  induction fuel with
  | zero =>
    intro x1 hp z h1 h2
    rw [extendLeft] at h1
    have : z = x1 := by omega
    rwa [this]
  | succ n ih =>
    intro x1 hp z h1 h2
    rw [extendLeft] at h1
    split_ifs at h1 with hc
    · rcases eq_or_lt_of_le h2 with rfl | hlt
      · exact hp
      · exact ih (x1 - 1) hc.2.1 z h1 (by omega)
    · have : z = x1 := by omega
      rwa [this]

theorem extendRight_ge (img : Image) (vis : Vis) (y : ℤ) :
    ∀ (fuel : ℕ) (x2 : ℤ), x2 ≤ extendRight img vis y fuel x2 := by
  intro fuel
  induction fuel with
  | zero => intro x2; simp [extendRight]
  | succ n ih =>
    intro x2
    rw [extendRight]
    split_ifs with h
    · have := ih (x2 + 1)
      omega
    · omega

theorem extendRight_bounded (img : Image) (vis : Vis) (y : ℤ) :
    ∀ (fuel : ℕ) (x2 : ℤ), x2 ≤ img.width - 1 →
      extendRight img vis y fuel x2 ≤ img.width - 1 := by
  intro fuel
  induction fuel with
  | zero => intro x2 h; simpa [extendRight] using h
  | succ n ih =>
    intro x2 h
    rw [extendRight]
    split_ifs with hc
    · exact ih (x2 + 1) (by omega)
    · exact h

theorem extendRight_pixels (img : Image) (vis : Vis) (y : ℤ) :
    ∀ (fuel : ℕ) (x2 : ℤ), img.pixels y x2 = 255 →
      ∀ z, x2 ≤ z → z ≤ extendRight img vis y fuel x2 → img.pixels y z = 255 := by
  intro fuel
  induction fuel with
  | zero =>
    intro x2 hp z h1 h2
    rw [extendRight] at h2
    have : z = x2 := by omega
    rwa [this]
  | succ n ih =>
    intro x2 hp z h1 h2
    rw [extendRight] at h2
    split_ifs at h2 with hc
    · rcases eq_or_lt_of_le h1 with rfl | hlt
      · exact hp
      · exact ih (x2 + 1) hc.2.1 z (by omega) h2
    · have : z = x2 := by omega
      rwa [this]

theorem runEnd_ge (img : Image) (vis : Vis) (newY x2 : ℤ) :
    ∀ (fuel : ℕ) (x : ℤ), x ≤ scanRuns.runEnd img vis newY x2 fuel x := by
  intro fuel
  induction fuel with
  | zero => intro x; simp [scanRuns.runEnd]
  | succ n ih =>
    intro x
    rw [scanRuns.runEnd]
    split_ifs with h
    · have := ih (x + 1)
      omega
    · omega

theorem runEnd_bounded (img : Image) (vis : Vis) (newY x2 : ℤ) :
    ∀ (fuel : ℕ) (x : ℤ), x ≤ x2 + 1 →
      scanRuns.runEnd img vis newY x2 fuel x ≤ x2 + 1 := by
  intro fuel
  induction fuel with
  | zero => intro x h; simpa [scanRuns.runEnd] using h
  | succ n ih =>
    intro x h
    rw [scanRuns.runEnd]
    split_ifs with hc
    · exact ih (x + 1) (by omega)
    · exact h

theorem runEnd_pixels (img : Image) (vis : Vis) (newY x2 : ℤ) :
    ∀ (fuel : ℕ) (x : ℤ), ∀ z, x ≤ z →
      z < scanRuns.runEnd img vis newY x2 fuel x → img.pixels newY z = 255 := by
  intro fuel
  induction fuel with
  | zero =>
    intro x z h1 h2
    rw [scanRuns.runEnd] at h2
    omega
  | succ n ih =>
    intro x z h1 h2
    rw [scanRuns.runEnd] at h2
    split_ifs at h2 with hc
    · rcases eq_or_lt_of_le h1 with rfl | hlt
      · exact hc.2.1
      · exact ih (x + 1) z (by omega) h2
    · omega

theorem scanRuns_segInv (img : Image) (vis : Vis) (newY x2 : ℤ)
    (hy0 : 0 ≤ newY) (hy1 : newY < img.height) (hx2 : x2 ≤ img.width - 1) :
    ∀ (fuel : ℕ) (x : ℤ), 0 ≤ x →
      ∀ seg ∈ scanRuns img vis newY x2 fuel x, SegInv img seg := by
  intro fuel
  induction fuel with
  | zero => intro x hx seg hseg; simp [scanRuns] at hseg
  | succ n ih =>
    intro x hx seg hseg
    rw [scanRuns] at hseg
    split_ifs at hseg with hle hrun
    · rcases List.mem_cons.mp hseg with rfl | htail
      · -- the freshly discovered run
        refine ⟨hy0, hy1, ?_, ?_, ?_⟩
        · exact extendLeft_nonneg img vis newY x.toNat x hx
        · apply extendRight_bounded
          have hre := runEnd_bounded img vis newY x2 n (x + 1) (by omega)
          omega
        · intro z hz1 hz2
          simp only at hz1 hz2
          have hxe := runEnd_ge img vis newY x2 n (x + 1)
          set xe := scanRuns.runEnd img vis newY x2 n (x + 1) with hxe_def
          have hmid : img.pixels newY (xe - 1) = 255 := by
            rcases eq_or_lt_of_le hxe with heq | hlt
            · rw [← heq]
              simpa using hrun.1
            · exact runEnd_pixels img vis newY x2 n (x + 1) (xe - 1) (by omega) (by omega)
          rcases le_or_lt z x with hzx | hzx
          · exact extendLeft_pixels img vis newY x.toNat x hrun.1 z hz1 hzx
          · rcases lt_or_le z xe with hzxe | hzxe
            · rcases eq_or_lt_of_le (show x + 1 ≤ z by omega) with heq | hgt
              · exact runEnd_pixels img vis newY x2 n (x + 1) z (by omega) (by omega)
              · exact runEnd_pixels img vis newY x2 n (x + 1) z (by omega) (by omega)
            · exact extendRight_pixels img vis newY
                ((img.width - 1 - (xe - 1)).toNat) (xe - 1) hmid z (by omega) hz2
      · have hxe := runEnd_ge img vis newY x2 n (x + 1)
        exact ih _ (by omega) seg htail
    · exact ih _ (by omega) seg hseg
    · simp at hseg

theorem ifRowSegs_segInv (img : Image) (vis : Vis) (newY x2 xs : ℤ) (fuel : ℕ)
    (hx1 : 0 ≤ xs) (hx2 : x2 ≤ img.width - 1) :
    ∀ s ∈ (if 0 ≤ newY ∧ newY < img.height then
        scanRuns img vis newY x2 fuel xs else []),
      SegInv img s := by
  intro s hs
  split_ifs at hs with hb
  · exact scanRuns_segInv img vis newY x2 hb.1 hb.2 hx2 fuel xs hx1 s hs
  · simp at hs

theorem setVis_mono (vis : Vis) (x y a b : ℤ) (h : vis a b = true) :
    setVis vis x y a b = true := by
  unfold setVis
  split_ifs <;> simp [h]

theorem mem_intsFromTo {a b x : ℤ} (h : x ∈ intsFromTo a b) : a ≤ x ∧ x ≤ b := by
  unfold intsFromTo at h
  rcases List.mem_map.mp h with ⟨i, hi, rfl⟩
  rw [List.mem_range, Int.lt_toNat] at hi
  have h0 : (0 : ℤ) ≤ (i : ℤ) := Int.natCast_nonneg i
  omega

theorem markRow_invariant (img : Image) (y : ℤ) :
    ∀ (xs : List ℤ) (vis : Vis) (acc : List Point),
      acc.Nodup → (∀ p ∈ acc, vis p.x p.y = true) →
      ((markRow img y xs vis acc).1.Nodup ∧
       (∀ p ∈ (markRow img y xs vis acc).1, (markRow img y xs vis acc).2 p.x p.y = true) ∧
       (∀ p ∈ (markRow img y xs vis acc).1, p ∈ acc ∨ (p.y = y ∧ p.x ∈ xs)) ∧
       (∀ a b, vis a b = true → (markRow img y xs vis acc).2 a b = true)) := by
  intro xs
  induction xs with
  | nil =>
    intro vis acc hnd hvis
    exact ⟨hnd, hvis, fun p hp => Or.inl hp, fun a b h => h⟩
  | cons x xs ih =>
    intro vis acc hnd hvis
    rw [markRow]
    split_ifs with hv
    · obtain ⟨c1, c2, c3, c4⟩ := ih vis acc hnd hvis
      refine ⟨c1, c2, fun p hp => ?_, c4⟩
      rcases c3 p hp with h | h
      · exact Or.inl h
      · exact Or.inr ⟨h.1, List.mem_cons_of_mem _ h.2⟩
    · have hnotin : Point.mk x y ∉ acc := by
        intro hmem
        have hvx := hvis (Point.mk x y) hmem
        simp only at hvx
        rw [hvx] at hv
        exact hv rfl
      have hnd2 : (acc ++ [Point.mk x y]).Nodup := by
        rw [List.nodup_append]
        exact ⟨hnd, List.nodup_singleton _, by simpa using hnotin⟩
      have hvis2 : ∀ p ∈ acc ++ [Point.mk x y], setVis vis x y p.x p.y = true := by
        intro p hp
        rcases List.mem_append.mp hp with hp | hp
        · exact setVis_mono vis x y p.x p.y (hvis p hp)
        · simp only [List.mem_singleton] at hp
          subst hp
          simp [setVis]
      obtain ⟨c1, c2, c3, c4⟩ := ih (setVis vis x y) (acc ++ [Point.mk x y]) hnd2 hvis2
      refine ⟨c1, c2, ?_, ?_⟩
      · intro p hp
        rcases c3 p hp with hin | hr
        · rcases List.mem_append.mp hin with hin | hin
          · exact Or.inl hin
          · simp only [List.mem_singleton] at hin
            subst hin
            exact Or.inr ⟨rfl, by simp⟩
        · exact Or.inr ⟨hr.1, by simp [hr.2]⟩
      · intro a b h
        exact c4 a b (setVis_mono vis x y a b h)

theorem fillLoop_invariant (img : Image) :
    ∀ (fuel : ℕ) (stack : List ScanlineSegment) (vis : Vis) (acc : List Point),
      (∀ seg ∈ stack, SegInv img seg) →
      acc.Nodup → (∀ p ∈ acc, vis p.x p.y = true) →
      (∀ p ∈ acc, PtInv img p) →
      ((fillLoop img fuel stack vis acc).1.Nodup ∧
       ∀ p ∈ (fillLoop img fuel stack vis acc).1, PtInv img p) := by
  intro fuel
  induction fuel with
  | zero =>
    intro stack vis acc hstack hnd hvis hpt
    exact ⟨hnd, hpt⟩
  | succ n ih =>
    intro stack vis acc hstack hnd hvis hpt
    match stack with
    | [] => exact ⟨hnd, hpt⟩
    | seg :: rest =>
      rw [fillLoop]
      have hseg := hstack seg (by simp)
      obtain ⟨hy0, hy1, hx1, hx2, hpix⟩ := hseg
      obtain ⟨m1, m2, m3, m4⟩ :=
        markRow_invariant img seg.y (intsFromTo seg.x1 seg.x2) vis acc hnd hvis
      have hptStep : ∀ p ∈ (markRow img seg.y (intsFromTo seg.x1 seg.x2) vis acc).1,
          PtInv img p := by
        intro p hp
        rcases m3 p hp with hin | ⟨hpy, hpx⟩
        · exact hpt p hin
        · have hxmem := mem_intsFromTo hpx
          exact ⟨by omega, by omega, by omega, by omega, by
            rw [hpy]; exact hpix p.x hxmem.1 hxmem.2⟩
      apply ih
      · intro s hs
        rcases List.mem_append.mp hs with hs | hs
        · rcases List.mem_append.mp hs with hs | hs
          · exact Scanline.ifRowSegs_segInv img _ (seg.y + 1) seg.x2 seg.x1 _ hx1 hx2 s
              (List.mem_reverse.mp hs)
          · exact Scanline.ifRowSegs_segInv img _ (seg.y - 1) seg.x2 seg.x1 _ hx1 hx2 s
              (List.mem_reverse.mp hs)
        · exact hstack s (List.mem_cons_of_mem _ hs)
      · exact m1
      · exact m2
      · exact hptStep

theorem scanlineFillContour_sound (img : Image) (sx sy : ℤ) (vis : Vis)
    (hx0 : 0 ≤ sx) (hx1 : sx < img.width) (hy0 : 0 ≤ sy) (hy1 : sy < img.height)
    (hpix : img.pixels sy sx = 255) :
    (scanlineFillContour img sx sy vis).1.Nodup ∧
    ∀ p ∈ (scanlineFillContour img sx sy vis).1, PtInv img p := by
  unfold scanlineFillContour
  apply fillLoop_invariant
  · intro seg hseg
    simp only [List.mem_singleton] at hseg
    subst hseg
    refine ⟨hy0, hy1, ?_, ?_, ?_⟩
    · exact extendLeft_nonneg img vis sy sx.toNat sx hx0
    · exact extendRight_bounded img vis sy _ sx (by omega)
    · intro z hz1 hz2
      simp only at hz1 hz2
      rcases le_or_lt z sx with hzx | hzx
      · exact extendLeft_pixels img vis sy sx.toNat sx hpix z hz1 hzx
      · exact extendRight_pixels img vis sy _ sx hpix z (by omega) hz2
  · exact List.nodup_nil
  · intro p hp
    simp at hp
  · intro p hp
    simp at hp

end Scanline

theorem mem_SortBoundaryPointsRadix (l : List Point) (p : Point)
    (h : p ∈ RectangleDetector.SortBoundaryPointsRadix l) : p ∈ l := by
  unfold RectangleDetector.SortBoundaryPointsRadix at h
  split_ifs at h
  · exact h
  · exact (mem_sortByComp _ _ _).mp h

theorem mem_ExtractBoundary_rect (region : List Point) (img : Image) (p : Point)
    (h : p ∈ RectangleDetector.ExtractBoundary region img) : p ∈ region := by
  unfold RectangleDetector.ExtractBoundary at h
  simp only [] at h
  split_ifs at h
  · exact (List.mem_filter.mp (mem_SortBoundaryPointsRadix _ _ h)).1
  · exact (List.mem_filter.mp h).1

theorem mem_yxPairs (img : Image) (yx : ℤ × ℤ) (h : yx ∈ yxPairs img) :
    0 ≤ yx.1 ∧ yx.1 < img.height ∧ 0 ≤ yx.2 ∧ yx.2 < img.width := by
  unfold yxPairs at h
  rw [List.mem_flatMap] at h
  obtain ⟨y, hy, hx⟩ := h
  rw [List.mem_map] at hx
  obtain ⟨x, hx, rfl⟩ := hx
  unfold intRange at hy hx
  have h1 := Scanline.mem_intsFromTo hy
  have h2 := Scanline.mem_intsFromTo hx
  exact ⟨h1.1, by omega, h2.1, by omega⟩

theorem foldl_findContoursStep_bounds (img : Image) (minRegion : ℕ)
    (extract : List Point → Image → List Point)
    (hext : ∀ region p, p ∈ extract region img → p ∈ region) :
    ∀ l : List (ℤ × ℤ),
      (∀ yx ∈ l, 0 ≤ yx.1 ∧ yx.1 < img.height ∧ 0 ≤ yx.2 ∧ yx.2 < img.width) →
      ∀ st : Vis × List (List Point), (∀ c ∈ st.2, ∀ p ∈ c, PtInv img p) →
      ∀ c ∈ (l.foldl (findContoursStep img minRegion extract) st).2, ∀ p ∈ c,
        PtInv img p := by
  intro l
  induction l with
  | nil =>
    intro _ st hst
    simpa using hst
  | cons yx t ih =>
    intro hmem st hst
    rw [List.foldl_cons]
    apply ih fun a ha => hmem a (List.mem_cons_of_mem _ ha)
    intro c hc p hp
    obtain ⟨hb1, hb2, hb3, hb4⟩ := hmem yx (by simp)
    unfold findContoursStep at hc
    simp only [] at hc
    split_ifs at hc with hseed hbig hbnd
    · rcases List.mem_append.mp hc with hc | hc
      · exact hst c hc p hp
      · simp only [List.mem_singleton] at hc
        subst hc
        have hfill := Scanline.scanlineFillContour_sound img yx.2 yx.1 st.1
          hb3 hb4 hb1 hb2 hseed.2
        exact hfill.2 p (hext _ p hp)
    · exact hst c hc p hp
    · exact hst c hc p hp
    · exact hst c hc p hp

theorem FindContours_rect_bounds (img : Image) :
    ∀ c ∈ RectangleDetector.FindContours img, ∀ p ∈ c, PtInv img p := by
  unfold RectangleDetector.FindContours
  exact foldl_findContoursStep_bounds img 50 RectangleDetector.ExtractBoundary
    (fun region p hp => mem_ExtractBoundary_rect region img p hp)
    (yxPairs img) (fun yx hyx => mem_yxPairs img yx hyx)
    ((fun _ _ => false), []) (by simp)

/-- C3: for every image, seed pixel in bounds with value 255 and unvisited,
`ScanlineFillContour` appends each pixel coordinate at most once
(the output has no duplicates), and every appended point lies in bounds with
pixel value 255; consequently every point of every boundary contour produced
by `FindContours` lies within raster bounds. -/
theorem scanline_fill_soundness (img : Image) (sx sy : ℤ) (vis : Vis)
    (hx0 : 0 ≤ sx) (hx1 : sx < img.width) (hy0 : 0 ≤ sy) (hy1 : sy < img.height)
    (hpix : img.pixels sy sx = 255) (hunv : vis sx sy = false) :
    ((Scanline.scanlineFillContour img sx sy vis).1.Nodup ∧
      ∀ p ∈ (Scanline.scanlineFillContour img sx sy vis).1,
        0 ≤ p.x ∧ p.x < img.width ∧ 0 ≤ p.y ∧ p.y < img.height ∧
          img.pixels p.y p.x = 255) ∧
    ∀ img2 : Image, (RectangleDetector.FindContours img2).Forall fun c =>
      c.Forall fun p =>
        0 ≤ p.x ∧ p.x < img2.width ∧ 0 ≤ p.y ∧ p.y < img2.height := by
  constructor
  · obtain ⟨h1, h2⟩ := Scanline.scanlineFillContour_sound img sx sy vis hx0 hx1 hy0 hy1 hpix
    exact ⟨h1, fun p hp => h2 p hp⟩
  · intro img2
    rw [List.forall_iff_forall_mem]
    intro c hc
    rw [List.forall_iff_forall_mem]
    intro p hp
    obtain ⟨b1, b2, b3, b4, _⟩ := FindContours_rect_bounds img2 c hc p hp
    exact ⟨b1, b2, b3, b4⟩

theorem distR_eval (px py qx qy d : ℤ) (hd : 0 ≤ d)
    (h : (px - qx) ^ 2 + (py - qy) ^ 2 = d ^ 2) :
    distR ⟨px, py⟩ ⟨qx, qy⟩ = (d : ℝ) := by
  unfold distR
  have hc : ((px : ℝ) - (qx : ℝ)) ^ 2 + ((py : ℝ) - (qy : ℝ)) ^ 2 = ((d : ℝ)) ^ 2 := by
    exact_mod_cast h
  rw [hc, Real.sqrt_sq (by exact_mod_cast hd)]

theorem dpStair_perimeter :
    RectangleDetector.CalculatePerimeter dpStairContour = 240 := by
  have e0 : distR ⟨40, 0⟩ ⟨0, 0⟩ = ((40 : ℤ) : ℝ) :=
    distR_eval 40 0 0 0 40 (by norm_num) (by norm_num)
  have e1 : distR ⟨40, 8⟩ ⟨40, 0⟩ = ((8 : ℤ) : ℝ) :=
    distR_eval 40 8 40 0 8 (by norm_num) (by norm_num)
  have e2 : distR ⟨80, 8⟩ ⟨40, 8⟩ = ((40 : ℤ) : ℝ) :=
    distR_eval 80 8 40 8 40 (by norm_num) (by norm_num)
  have e3 : distR ⟨80, 40⟩ ⟨80, 8⟩ = ((32 : ℤ) : ℝ) :=
    distR_eval 80 40 80 8 32 (by norm_num) (by norm_num)
  have e4 : distR ⟨0, 40⟩ ⟨80, 40⟩ = ((80 : ℤ) : ℝ) :=
    distR_eval 0 40 80 40 80 (by norm_num) (by norm_num)
  have e5 : distR ⟨0, 0⟩ ⟨0, 40⟩ = ((40 : ℤ) : ℝ) :=
    distR_eval 0 0 0 40 40 (by norm_num) (by norm_num)
  unfold RectangleDetector.CalculatePerimeter
  rw [if_neg (by norm_num [dpStairContour])]
  norm_num [dpStairContour, RectangleDetector.getP, List.range_succ]
  rw [e0, e1, e2, e3, e4, e5]
  norm_num

theorem dpApprox_stair_tol2 :
    RectangleDetector.dpApprox dpStairContour 2 = dpStairContour := by
  norm_num [RectangleDetector.dpApprox, RectangleDetector.DouglasPeuckerRecursive,
    RectangleDetector.maxDistScan, RectangleDetector.PointToLineDistanceSquared,
    RectangleDetector.getP, dpStairContour, List.range_succ]

theorem dpApprox_stair_tol48 :
    RectangleDetector.dpApprox dpStairContour 4.8 =
      [⟨0, 0⟩, ⟨80, 8⟩, ⟨80, 40⟩, ⟨0, 40⟩] := by
  norm_num [RectangleDetector.dpApprox, RectangleDetector.DouglasPeuckerRecursive,
    RectangleDetector.maxDistScan, RectangleDetector.PointToLineDistanceSquared,
    RectangleDetector.getP, dpStairContour, List.range_succ]

theorem SmoothContourForRotation_length (c : List Point) :
    (RectangleDetector.SmoothContourForRotation c).length = c.length := by
  unfold RectangleDetector.SmoothContourForRotation
  split_ifs
  · rfl
  · rw [List.length_map, List.length_range]

theorem dpLoop_stair :
    RectangleDetector.dpLoop dpStairContour 0.02
      (RectangleDetector.CalculatePerimeter dpStairContour)
      RectangleDetector.epsilonMultipliers = some dpStairContour := by
  have hmax : max (0.02 * 240 * 0.05 : ℝ) 2 = 2 :=
    max_eq_right (by norm_num)
  rw [dpStair_perimeter, RectangleDetector.epsilonMultipliers,
    RectangleDetector.dpLoop]
  simp only [hmax]
  rw [dpApprox_stair_tol2]
  rw [if_neg (by norm_num [dpStairContour]), if_pos (by norm_num [dpStairContour])]

open RectangleDetector in
theorem ApproximateContour_stair :
    RectangleDetector.ApproximateContour ⟨200, 8000, 0.02⟩ dpStairContour 0.02 =
      dpStairContour := by
  have h1 : ¬ (dpStairContour.length < 4) := by norm_num [dpStairContour]
  have h2 : ¬ (20 < dpStairContour.length ∧
      ¬ IsLikelyCircularContour dpStairContour) := by
    rintro ⟨h, -⟩
    norm_num [dpStairContour] at h
  have h3 : ¬ (30 < dpStairContour.length ∧
      ¬ IsLikelyCircularContour dpStairContour) := by
    rintro ⟨h, -⟩
    norm_num [dpStairContour] at h
  have h4 : ¬ (50 < (SmoothContourForRotation dpStairContour).length) := by
    rw [SmoothContourForRotation_length]
    norm_num [dpStairContour]
  simp only [ApproximateContour, if_neg h1, if_neg h2, if_neg h3, if_neg h4,
    dpLoop_stair]

/-- C9 counterexample: with the default `approxEpsilon = 0.02` on the 6-point
staircase contour (perimeter 240), the multiplier `1.0` of the sequence
yields a Douglas-Peucker result of exactly 4 points, yet `ApproximateContour`
returns the 6-point result accepted at the earlier multiplier `0.05` — so
the loop does not prefer an exactly-4 result of a later multiplier over a
5–12-point result of an earlier one. -/
theorem ApproximateContour_dp_order_counterexample :
    (RectangleDetector.ApproximateContour ⟨200, 8000, 0.02⟩ dpStairContour
      0.02).length = 6 ∧
    (1.0 : ℝ) ∈ RectangleDetector.epsilonMultipliers ∧
    (RectangleDetector.dpApprox dpStairContour
      (max (0.02 * RectangleDetector.CalculatePerimeter dpStairContour * 1.0) 2)).length
      = 4 := by
  refine ⟨?_, ?_, ?_⟩
  · rw [ApproximateContour_stair]
    norm_num [dpStairContour]
  · norm_num [RectangleDetector.epsilonMultipliers]
  · rw [dpStair_perimeter]
    have hmax : max (0.02 * 240 * 1.0 : ℝ) 2 = 4.8 := by
      rw [max_eq_left (by norm_num)]
      norm_num
    rw [hmax, dpApprox_stair_tol48]
    norm_num

open RectangleDetector in
/-- C9 amended: when the moment-based, Hough and curvature strategies are
skipped (contour of 4 to 20 points), `ApproximateContour` runs the
Douglas-Peucker loop over the multiplier sequence `0.05..3.0` with tolerance
`max(epsilon·perimeter·multiplier, 2.0)` and accepts at the FIRST multiplier
whose result has exactly 4 points or (tested in the same pass) 5–12 points —
a later multiplier is never consulted once an earlier one is accepted — and
only when no multiplier is accepted falls back to the convex hull and then a
final fixed-tolerance pass. -/
theorem ApproximateContour_dp_stage_spec :
    (∀ (cfg : Config) (contour : List Point) (epsilon : ℝ),
      4 ≤ contour.length → contour.length ≤ 20 →
      ApproximateContour cfg contour epsilon =
        match dpLoop contour epsilon (CalculatePerimeter contour)
            epsilonMultipliers with
        | some approx => approx
        | none =>
          let hull := ConvexHull contour
          if 4 ≤ hull.length ∧ hull.length ≤ 8 then hull
          else dpApprox contour (max (epsilon * CalculatePerimeter contour) 3)) ∧
    (∀ (contour : List Point) (epsilon perimeter multiplier : ℝ)
        (rest : List ℝ),
      dpLoop contour epsilon perimeter (multiplier :: rest) =
        (let approx := dpApprox contour (max (epsilon * perimeter * multiplier) 2)
         if approx.length = 4 ∨ (5 ≤ approx.length ∧ approx.length ≤ 12) then
           some approx
         else dpLoop contour epsilon perimeter rest)) := by
  constructor
  · intro cfg contour epsilon h4 h20
    unfold ApproximateContour
    rw [if_neg (by omega)]
    simp only []
    rw [if_neg (by rintro ⟨h, -⟩; omega)]
    simp only []
    rw [if_neg (by rintro ⟨h, -⟩; omega)]
    simp only []
    rw [if_neg (by rw [SmoothContourForRotation_length]; omega)]
  · intro contour epsilon perimeter multiplier rest
    rw [dpLoop]
    simp only []
    by_cases h4 : (dpApprox contour (max (epsilon * perimeter * multiplier) 2)).length = 4
    · rw [if_pos h4, if_pos (Or.inl h4)]
    · rw [if_neg h4]
      by_cases h512 : 5 ≤ (dpApprox contour (max (epsilon * perimeter * multiplier) 2)).length ∧
          (dpApprox contour (max (epsilon * perimeter * multiplier) 2)).length ≤ 12
      · rw [if_pos h512, if_pos (Or.inr h512)]
      · rw [if_neg h512, if_neg (by rintro (h | h); exact h4 h; exact h512 h)]

open RectangleDetector in
/-- C9 witness: the amended statement instantiated on the concrete staircase
contour. -/
theorem ApproximateContour_dp_stage_spec_witness :
    (4 ≤ dpStairContour.length ∧ dpStairContour.length ≤ 20) ∧
    ApproximateContour ⟨200, 8000, 0.02⟩ dpStairContour 0.02 =
      match dpLoop dpStairContour 0.02 (CalculatePerimeter dpStairContour)
          epsilonMultipliers with
      | some approx => approx
      | none =>
        let hull := ConvexHull dpStairContour
        if 4 ≤ hull.length ∧ hull.length ≤ 8 then hull
        else dpApprox dpStairContour (max (0.02 * CalculatePerimeter dpStairContour) 3) :=
  ⟨⟨by decide, by decide⟩,
    ApproximateContour_dp_stage_spec.1 ⟨200, 8000, 0.02⟩ dpStairContour 0.02
      (by decide) (by decide)⟩

theorem dtrunc_le_dtrunc {a b : ℝ} (ha : 0 ≤ a) (hab : a ≤ b) :
    dtrunc a ≤ dtrunc b := by
  unfold dtrunc
  rw [if_pos ha, if_pos (le_trans ha hab)]
  exact Int.floor_le_floor hab

theorem sideLen_nonneg (quad : List Point) (i : ℕ) :
    0 ≤ RectangleDetector.sideLen quad i := by
  unfold RectangleDetector.sideLen distR
  exact Real.sqrt_nonneg _

theorem CalculateContourCentroid_cases (c : List Point) (hc : ¬ c.length = 0) :
    RectangleDetector.CalculateContourCentroid c =
      if |signedAreaR c| < 1e-6 then meanPointTrunc c
      else shoelaceCentroidPoint c := by
  unfold RectangleDetector.CalculateContourCentroid signedAreaR meanPointTrunc
    shoelaceCentroidPoint contourCrossAt
  rw [if_neg hc]
  simp only []
  split_ifs <;> rfl

open RectangleDetector in
/-- C5: for every contour whose simplification yields a clean 4-corner
polygon, `CreateRectangle` sets the center to the signed-area (shoelace)
centroid of the original pre-simplification contour (falling back to the
truncated arithmetic mean when the signed area is within `1e-6` of zero),
the width to the larger and the height to the smaller of the two
opposite-edge-pair average lengths (so width ≥ height), and the angle to the
atan2 of the longer pair's direction vector, a value in `(−π, π]`. -/
theorem CreateRectangle_spec (cfg : Config) (contour : List Point)
    (h : (CleanupCorners (ApproximateContour cfg contour cfg.approxEpsilon)).length = 4) :
    (∀ c : List Point, ¬ c.length = 0 →
      CalculateContourCentroid c =
        if |signedAreaR c| < 1e-6 then meanPointTrunc c
        else shoelaceCentroidPoint c) ∧
    (let clean := CleanupCorners (ApproximateContour cfg contour cfg.approxEpsilon)
     let avgLength1 := (sideLen clean 0 + sideLen clean 2) / 2
     let avgLength2 := (sideLen clean 1 + sideLen clean 3) / 2
     let rect := CreateRectangle cfg contour
     rect.center = CalculateContourCentroid contour ∧
     rect.width = dtrunc (max avgLength1 avgLength2) ∧
     rect.height = dtrunc (min avgLength1 avgLength2) ∧
     rect.height ≤ rect.width ∧
     (avgLength2 < avgLength1 →
       rect.angle = atan2R (edgeVec clean 0).2 (edgeVec clean 0).1) ∧
     (avgLength1 < avgLength2 →
       rect.angle = atan2R (edgeVec clean 1).2 (edgeVec clean 1).1) ∧
     rect.angle ∈ Set.Ioc (-Real.pi) Real.pi) := by
  refine ⟨fun c hc => CalculateContourCentroid_cases c hc, ?_⟩
  simp only []
  have hrect : CreateRectangle cfg contour =
      (let clean := CleanupCorners (ApproximateContour cfg contour cfg.approxEpsilon)
       let avgLength1 := (sideLen clean 0 + sideLen clean 2) / 2
       let avgLength2 := (sideLen clean 1 + sideLen clean 3) / 2
       if avgLength2 < avgLength1 then
        (⟨CalculateContourCentroid contour, dtrunc avgLength1, dtrunc avgLength2,
          atan2R (edgeVec clean 0).2 (edgeVec clean 0).1⟩ : Rectangle)
       else
        ⟨CalculateContourCentroid contour, dtrunc avgLength2, dtrunc avgLength1,
          atan2R (edgeVec clean 1).2 (edgeVec clean 1).1⟩) := by
    unfold CreateRectangle
    simp only []
    rw [if_neg (show ¬ 4 <
      (CleanupCorners (ApproximateContour cfg contour cfg.approxEpsilon)).length by omega)]
    rw [if_neg (show ¬ (CleanupCorners
      (ApproximateContour cfg contour cfg.approxEpsilon)).length < 3 by omega)]
    rw [if_neg (show ¬ (CleanupCorners
      (ApproximateContour cfg contour cfg.approxEpsilon)).length = 3 by omega)]
    rw [if_neg (show ¬ (4 <
        (CleanupCorners (ApproximateContour cfg contour cfg.approxEpsilon)).length ∧
        (CleanupCorners (ApproximateContour cfg contour cfg.approxEpsilon)).length ≠ 4)
      from fun hc => absurd hc.1 (by omega))]
    rw [if_pos h]
  rw [hrect]
  simp only []
  set clean := CleanupCorners (ApproximateContour cfg contour cfg.approxEpsilon)
  set a1 := (sideLen clean 0 + sideLen clean 2) / 2 with ha1
  set a2 := (sideLen clean 1 + sideLen clean 3) / 2 with ha2
  have h1nn : 0 ≤ a1 := by
    rw [ha1]
    have := sideLen_nonneg clean 0
    have := sideLen_nonneg clean 2
    linarith
  have h2nn : 0 ≤ a2 := by
    rw [ha2]
    have := sideLen_nonneg clean 1
    have := sideLen_nonneg clean 3
    linarith
  by_cases hcmp : a2 < a1
  · rw [if_pos hcmp]
    refine ⟨rfl, ?_, ?_, ?_, fun _ => rfl, fun hlt => absurd hlt (by linarith), ?_⟩
    · rw [max_eq_left (le_of_lt hcmp)]
    · rw [min_eq_right (le_of_lt hcmp)]
    · exact dtrunc_le_dtrunc h2nn (le_of_lt hcmp)
    · unfold atan2R
      exact Complex.arg_mem_Ioc _
  · rw [if_neg hcmp]
    push_neg at hcmp
    refine ⟨rfl, ?_, ?_, ?_, fun hlt => absurd hlt (by linarith), fun _ => rfl, ?_⟩
    · rw [max_eq_right hcmp]
    · rw [min_eq_left hcmp]
    · exact dtrunc_le_dtrunc h1nn hcmp
    · unfold atan2R
      exact Complex.arg_mem_Ioc _

theorem rect106_perimeter :
    RectangleDetector.CalculatePerimeter rect106 = 32 := by
  have e0 : distR ⟨10, 0⟩ ⟨0, 0⟩ = ((10 : ℤ) : ℝ) :=
    distR_eval 10 0 0 0 10 (by norm_num) (by norm_num)
  have e1 : distR ⟨10, 6⟩ ⟨10, 0⟩ = ((6 : ℤ) : ℝ) :=
    distR_eval 10 6 10 0 6 (by norm_num) (by norm_num)
  have e2 : distR ⟨0, 6⟩ ⟨10, 6⟩ = ((10 : ℤ) : ℝ) :=
    distR_eval 0 6 10 6 10 (by norm_num) (by norm_num)
  have e3 : distR ⟨0, 0⟩ ⟨0, 6⟩ = ((6 : ℤ) : ℝ) :=
    distR_eval 0 0 0 6 6 (by norm_num) (by norm_num)
  unfold RectangleDetector.CalculatePerimeter
  rw [if_neg (by norm_num [rect106])]
  norm_num [rect106, RectangleDetector.getP, List.range_succ]
  rw [e0, e1, e2, e3]
  norm_num

theorem dpApprox_rect106_tol2 :
    RectangleDetector.dpApprox rect106 2 = rect106 := by
  norm_num [RectangleDetector.dpApprox, RectangleDetector.DouglasPeuckerRecursive,
    RectangleDetector.maxDistScan, RectangleDetector.PointToLineDistanceSquared,
    RectangleDetector.getP, rect106, List.range_succ]

theorem dpLoop_rect106 :
    RectangleDetector.dpLoop rect106 0.02
      (RectangleDetector.CalculatePerimeter rect106)
      RectangleDetector.epsilonMultipliers = some rect106 := by
  have hmax : max (0.02 * 32 * 0.05 : ℝ) 2 = 2 := max_eq_right (by norm_num)
  rw [rect106_perimeter, RectangleDetector.epsilonMultipliers,
    RectangleDetector.dpLoop]
  simp only [hmax]
  rw [dpApprox_rect106_tol2]
  rw [if_pos (by norm_num [rect106])]

open RectangleDetector in
theorem ApproximateContour_rect106 :
    RectangleDetector.ApproximateContour ⟨200, 8000, 0.02⟩ rect106 0.02 =
      rect106 := by
  have h1 : ¬ (rect106.length < 4) := by norm_num [rect106]
  have h2 : ¬ (20 < rect106.length ∧ ¬ IsLikelyCircularContour rect106) := by
    rintro ⟨h, -⟩
    norm_num [rect106] at h
  have h3 : ¬ (30 < rect106.length ∧ ¬ IsLikelyCircularContour rect106) := by
    rintro ⟨h, -⟩
    norm_num [rect106] at h
  have h4 : ¬ (50 < (SmoothContourForRotation rect106).length) := by
    rw [SmoothContourForRotation_length]
    norm_num [rect106]
  simp only [ApproximateContour, if_neg h1, if_neg h2, if_neg h3, if_neg h4,
    dpLoop_rect106]

open RectangleDetector in
/-- C5 witness: `CreateRectangle` on the concrete 10×6 axis-aligned rectangle
contour, whose simplification and cleanup yield exactly 4 corners. -/
theorem CreateRectangle_spec_witness :
    (CleanupCorners (ApproximateContour ⟨200, 8000, 0.02⟩ rect106
        (⟨200, 8000, 0.02⟩ : Config).approxEpsilon)).length = 4 ∧
    ((∀ c : List Point, ¬ c.length = 0 →
      CalculateContourCentroid c =
        if |signedAreaR c| < 1e-6 then meanPointTrunc c
        else shoelaceCentroidPoint c) ∧
    (let clean := CleanupCorners (ApproximateContour ⟨200, 8000, 0.02⟩ rect106
        (⟨200, 8000, 0.02⟩ : Config).approxEpsilon)
     let avgLength1 := (sideLen clean 0 + sideLen clean 2) / 2
     let avgLength2 := (sideLen clean 1 + sideLen clean 3) / 2
     let rect := CreateRectangle ⟨200, 8000, 0.02⟩ rect106
     rect.center = CalculateContourCentroid rect106 ∧
     rect.width = dtrunc (max avgLength1 avgLength2) ∧
     rect.height = dtrunc (min avgLength1 avgLength2) ∧
     rect.height ≤ rect.width ∧
     (avgLength2 < avgLength1 →
       rect.angle = atan2R (edgeVec clean 0).2 (edgeVec clean 0).1) ∧
     (avgLength1 < avgLength2 →
       rect.angle = atan2R (edgeVec clean 1).2 (edgeVec clean 1).1) ∧
     rect.angle ∈ Set.Ioc (-Real.pi) Real.pi)) := by
  have h4 : (CleanupCorners (ApproximateContour ⟨200, 8000, 0.02⟩ rect106
      (⟨200, 8000, 0.02⟩ : Config).approxEpsilon)).length = 4 := by
    rw [show (⟨200, 8000, 0.02⟩ : Config).approxEpsilon = 0.02 from rfl,
      ApproximateContour_rect106]
    decide
  exact ⟨h4, CreateRectangle_spec ⟨200, 8000, 0.02⟩ rect106 h4⟩

/-- C3 witness: the flood fill on a concrete all-white 3×3 raster seeded at
`(1,1)` with a fresh visited matrix. -/
theorem scanline_fill_soundness_witness :
    ((⟨3, 3, fun _ _ => 255⟩ : Image).pixels 1 1 = 255 ∧
      (fun _ _ => false : Vis) 1 1 = false) ∧
    ((Scanline.scanlineFillContour ⟨3, 3, fun _ _ => 255⟩ 1 1
        (fun _ _ => false)).1.Nodup ∧
      ∀ p ∈ (Scanline.scanlineFillContour ⟨3, 3, fun _ _ => 255⟩ 1 1
          (fun _ _ => false)).1,
        0 ≤ p.x ∧ p.x < (⟨3, 3, fun _ _ => 255⟩ : Image).width ∧
          0 ≤ p.y ∧ p.y < (⟨3, 3, fun _ _ => 255⟩ : Image).height ∧
          (⟨3, 3, fun _ _ => 255⟩ : Image).pixels p.y p.x = 255) :=
  ⟨⟨rfl, rfl⟩,
    (scanline_fill_soundness ⟨3, 3, fun _ _ => 255⟩ 1 1 (fun _ _ => false)
      (by decide) (by decide) (by decide) (by decide) rfl rfl).1⟩

end


